import Mathlib

/-!
# Statement binding and result extraction (`database_binder`)

A shallow embedding of `database_binder.hpp`, `sqlite_errors.hpp` and
`sqlite_exception.hpp`.  The SQL engine (`sqlite3.h`) is external to the
repository; it enters as a record `Engine σ` of the API functions the binder
calls, over an arbitrary type `σ` of statement states.  Exceptions are values
of `Outcome`; the two unbounded `while` loops take a fuel argument.

The field `trace` of `database_binder` is ghost state: it records, in order,
every state-changing engine call issued through the object, and a marker each
time `start_execute_` completes.

Binding and decoding are embedded for the five non-template overloads.  The
two adapter templates for further integral types carry a default template
argument that never substitutes, so overload resolution always selects a
non-template overload.  User callbacks are pure functions of the decoded
values and of the state they captured.
-/

namespace sqlite

/-! ## Engine constants (`sqlite3.h`) -/

/-- Modelled from the spec: the type `SQL_RESULT` of `sqlite_def.hpp`, a header
that is not among the sources; it holds the status code of an engine call, a
C `int`. -/
abbrev SQL_RESULT := Int

/-- Successful result. -/
abbrev SQLITE_OK : SQL_RESULT := 0
/-- The database file is locked. -/
abbrev SQLITE_BUSY : SQL_RESULT := 5
/-- Library used incorrectly. -/
abbrev SQLITE_MISUSE : SQL_RESULT := 21
/-- Bind index out of range. -/
abbrev SQLITE_RANGE : SQL_RESULT := 25
/-- Notifications from the engine log. -/
abbrev SQLITE_NOTICE : SQL_RESULT := 27
/-- A step has another row ready. -/
abbrev SQLITE_ROW : SQL_RESULT := 100
/-- A step has finished executing. -/
abbrev SQLITE_DONE : SQL_RESULT := 101

/-- Fundamental datatype code of an integer column. -/
abbrev SQLITE_INTEGER : Int := 1
/-- Fundamental datatype code of a floating point column. -/
abbrev SQLITE_FLOAT : Int := 2
/-- Fundamental datatype code of a text column. -/
abbrev SQLITE_TEXT : Int := 3
/-- Fundamental datatype code of a null column. -/
abbrev SQLITE_NULL : Int := 5

/-- Primary result codes defined by `sqlite3.h`: 0 to 28, 100 and 101. -/
def is_primary_result_code (c : Int) : Prop :=
  (0 ≤ c ∧ c ≤ 28) ∨ c = 100 ∨ c = 101

instance (c : Int) : Decidable (is_primary_result_code c) := by
  unfold is_primary_result_code; infer_instance

/-- Statuses an engine call can return: a primary result code, or an extended
code, whose low byte is the primary code it refines. -/
def is_engine_status (c : Int) : Prop :=
  0 ≤ c ∧ is_primary_result_code (c % 256)

instance (c : Int) : Decidable (is_engine_status c) := by
  unfold is_engine_status; infer_instance

/-- Error codes of `sqlite3.h`, with which an engine call reports a failure:
the primary codes 1 to 26 and their extended codes, whose low byte is the
primary code.  Success, row and done report no failure; notice (27) and
warning (28) are passed to the log callback only. -/
def is_error_code (c : Int) : Prop :=
  0 ≤ c ∧ 1 ≤ c % 256 ∧ c % 256 ≤ 26

instance (c : Int) : Decidable (is_error_code c) := by
  unfold is_error_code; infer_instance

/-! ## `sqlite_exception.hpp` -/

/-- The exception type: the `runtime_error` message, the code and the SQL. -/
structure sqlite_exception where
  what : String
  code : Int
  sql : String
deriving DecidableEq, Repr

namespace sqlite_exception

/-- Constructor `sqlite_exception(int code, std::string sql)`: the message is
the engine's `sqlite3_errstr(code)`. -/
def of_code (sqlite3_errstr : Int → String) (code : Int) (sql : String) :
    sqlite_exception :=
  { what := sqlite3_errstr code, code := code, sql := sql }

/-- Constructor `sqlite_exception(const char* msg, std::string sql, int code)`;
callers that omit `code` pass the default `-1`. -/
def of_msg (msg : String) (sql : String) (code : Int) : sqlite_exception :=
  { what := msg, code := code, sql := sql }

/-- Method `get_code`: `code & 0xFF`, which on a two's complement `int` is the
remainder of `code` modulo 256 in `0..255`. -/
def get_code (e : sqlite_exception) : Int := e.code % 256

/-- Method `get_extended_code`. -/
def get_extended_code (e : sqlite_exception) : Int := e.code

/-- Method `get_sql`. -/
def get_sql (e : sqlite_exception) : String := e.sql

end sqlite_exception

/-- Detector `utility::uncaught_exception_detector`.  With
`__cpp_lib_uncaught_exceptions` it stores `std::uncaught_exceptions()` at
construction; without it the object is empty. -/
inductive uncaught_exception_detector where
  | counting (count : Int)
  | legacy
deriving DecidableEq, Repr

namespace uncaught_exception_detector

/-- Default construction while `uncaught` exceptions are in flight; `cpp17`
tells whether `__cpp_lib_uncaught_exceptions` is defined. -/
def init (cpp17 : Bool) (uncaught : Int) : uncaught_exception_detector :=
  if cpp17 then counting uncaught else legacy

/-- Default construction of a detector of the same variant as `d`. -/
def reinit (d : uncaught_exception_detector) (uncaught : Int) :
    uncaught_exception_detector :=
  match d with
  | counting _ => counting uncaught
  | legacy => legacy

/-- Conversion `operator bool()` evaluated while `uncaught` exceptions are in
flight: `count != std::uncaught_exceptions()`, respectively
`std::uncaught_exception()`. -/
def operator_bool (d : uncaught_exception_detector) (uncaught : Int) : Bool :=
  match d with
  | counting count => decide (count ≠ uncaught)
  | legacy => decide (uncaught ≠ 0)

end uncaught_exception_detector

/-! ## `sqlite_errors.hpp` -/

namespace errors

/-- Function `throw_sqlite_error`: `none` when it returns, `some e` when it
throws `e`. -/
def throw_sqlite_error (sqlite3_errstr : Int → String) (error_code : SQL_RESULT)
    (sql : String) : Option sqlite_exception :=
  if error_code = SQLITE_OK ∨ error_code = SQLITE_ROW
      ∨ error_code = SQLITE_NOTICE ∨ error_code = SQLITE_DONE then
    none
  else
    some (sqlite_exception.of_code sqlite3_errstr error_code sql)

/-- Function `throw_bad_sqlite`: always throws the returned exception. -/
def throw_bad_sqlite (msg : String) (sql : String) (code : Int) : sqlite_exception :=
  sqlite_exception.of_msg msg sql code

end errors

/-! ## The engine interface -/

/-- The engine API used by the binder, for one connection.  `σ` is the state
of a prepared statement.  Doubles and floats are carried as bit patterns; the
two conversions between them belong to the platform. -/
structure Engine (σ : Type) where
  /-- Compile the first statement of a C string: the result code, the
  statement handle (possibly null) and the offset of the unparsed tail. -/
  sqlite3_prepare_v2 : String → SQL_RESULT × Option σ × Nat
  sqlite3_sql : σ → String
  sqlite3_errstr : Int → String
  sqlite3_step : σ → SQL_RESULT × σ
  sqlite3_reset : σ → σ
  sqlite3_clear_bindings : σ → σ
  sqlite3_bind_int : σ → Int → Int → SQL_RESULT × σ
  sqlite3_bind_int64 : σ → Int → Int → SQL_RESULT × σ
  sqlite3_bind_double : σ → Int → Nat → SQL_RESULT × σ
  sqlite3_bind_text : σ → Int → String → SQL_RESULT × σ
  sqlite3_column_type : σ → Int → Int
  sqlite3_column_int : σ → Int → Int
  sqlite3_column_int64 : σ → Int → Int
  sqlite3_column_double : σ → Int → Nat
  sqlite3_column_text : σ → Int → String
  /-- Conversion `static_cast<float>` of a double. -/
  double_to_float : Nat → Nat
  /-- Implicit conversion of a float to double. -/
  float_to_double : Nat → Nat

/-- The C string starting at `s.data()`: the characters before the first NUL.
This is what the engine reads when given a pointer and the length `-1`, and
what `std::string` reads from a `const char*`. -/
def c_str (s : String) : String :=
  String.mk (s.data.takeWhile (fun ch => decide (ch.toNat ≠ 0)))

/-- Function `std::isspace` in the C locale: space and the controls 9 to 13. -/
def isspace (ch : Char) : Bool :=
  decide (ch.toNat = 32 ∨ (9 ≤ ch.toNat ∧ ch.toNat ≤ 13))

/-- Ghost events recorded in `database_binder.trace`. -/
inductive Event where
  /-- Marker: `start_execute_` has completed, stepping begins. -/
  | start
  | step
  | reset
  | clear_bindings
  | bind_int (idx : Int) (val : Int)
  | bind_int64 (idx : Int) (val : Int)
  | bind_double (idx : Int) (val : Nat)
  | bind_text (idx : Int) (val : String)
deriving DecidableEq, Repr

/-- How a call ends: it returns, it throws, or the fuel of a loop ran out
while the engine kept reporting rows. -/
inductive Outcome where
  | returned
  | raised (e : sqlite_exception)
  | unfinished
deriving DecidableEq, Repr

/-- Values accepted by `operator<<`, tagged by the static type of the
non-template overload that takes them. -/
inductive BindVal where
  | int (val : Int)
  | int64 (val : Int)
  | float (val : Nat)
  | double (val : Nat)
  | string (val : String)
deriving DecidableEq, Repr

/-- Static destination types served by a non-template `get_column_from_db`. -/
inductive CppTy where
  | int
  | int64
  | float
  | double
  | string
deriving DecidableEq, Repr

/-- A decoded value, tagged by its static type. -/
inductive CppVal where
  | int (val : Int)
  | int64 (val : Int)
  | float (val : Nat)
  | double (val : Nat)
  | string (val : String)
deriving DecidableEq, Repr

/-! ## `database_binder` -/

/-- The class `database_binder`.  `stmt_` is `none` for a null handle; `db_`
is the connection the engine record stands for. -/
structure database_binder (σ : Type) where
  stmt_ : Option σ
  has_uncaught_detector_ : uncaught_exception_detector
  idx_ : Int
  execution_started : Bool
  trace : List Event

variable {σ κ : Type}

namespace database_binder

/-- Call `sqlite3_step(stmt_.get())`; a null handle is answered with
`SQLITE_MISUSE`. -/
def call_step (E : Engine σ) (b : database_binder σ) : SQL_RESULT × database_binder σ :=
  match b.stmt_ with
  | some s =>
    ((E.sqlite3_step s).1,
      { b with stmt_ := some (E.sqlite3_step s).2, trace := b.trace ++ [Event.step] })
  | none => (SQLITE_MISUSE, { b with trace := b.trace ++ [Event.step] })

/-- Call `sqlite3_reset(stmt_.get())`; the result code is ignored. -/
def call_reset (E : Engine σ) (b : database_binder σ) : database_binder σ :=
  { b with stmt_ := b.stmt_.map E.sqlite3_reset, trace := b.trace ++ [Event.reset] }

/-- Call `sqlite3_clear_bindings(stmt_.get())`; the result code is ignored. -/
def call_clear_bindings (E : Engine σ) (b : database_binder σ) : database_binder σ :=
  { b with stmt_ := b.stmt_.map E.sqlite3_clear_bindings,
           trace := b.trace ++ [Event.clear_bindings] }

/-- Method `sql()`: `sqlite3_sql(stmt_.get())`.  On a null handle the engine
returns a null pointer and the code builds a `std::string` from it, which is
undefined; the empty text given here for that case is a placeholder, and every
statement about the text of an exception is made for a live handle. -/
def sql (E : Engine σ) (b : database_binder σ) : String :=
  match b.stmt_ with
  | some s => E.sqlite3_sql s
  | none => ""

/-- Getter `used()`. -/
def used (b : database_binder σ) : Bool := b.execution_started

/-- Method `next_index_()`: the returned index and the updated object. -/
def next_index_ (E : Engine σ) (b : database_binder σ) : Int × database_binder σ :=
  let b1 :=
    if b.execution_started = true ∧ b.idx_ = 0 then
      call_clear_bindings E (call_reset E b)
    else b
  (b1.idx_ + 1, { b1 with idx_ := b1.idx_ + 1 })

/-- Setter `used(bool state)`. -/
def set_used (E : Engine σ) (state : Bool) (b : database_binder σ) : database_binder σ :=
  let b1 :=
    if state = false then
      let b2 := (next_index_ E b).2
      { b2 with idx_ := b2.idx_ - 1 }
    else b
  { b1 with execution_started := state }

/-- Method `start_execute_()`; the ghost marker `Event.start` is appended when
it completes. -/
def start_execute_ (E : Engine σ) (b : database_binder σ) : database_binder σ :=
  let b1 := (next_index_ E b).2
  let b2 := { b1 with idx_ := 0 }
  let b3 := set_used E true b2
  { b3 with trace := b3.trace ++ [Event.start] }

/-- The loop `while ((ret_code = sqlite3_step(stmt_.get())) == SQLITE_ROW) {}`
of `execute`: the object after the loop and the status that ended it, `none`
when the fuel ran out first. -/
def step_while_row (E : Engine σ) :
    Nat → database_binder σ → database_binder σ × Option SQL_RESULT
  | 0, b => (b, none)
  | fuel + 1, b =>
    if (call_step E b).1 = SQLITE_ROW then step_while_row E fuel (call_step E b).2
    else ((call_step E b).2, some (call_step E b).1)

/-- Method `execute()`. -/
def execute (E : Engine σ) (fuel : Nat) (b : database_binder σ) :
    database_binder σ × Outcome :=
  let r := step_while_row E fuel (start_execute_ E b)
  match r.2 with
  | none => (r.1, Outcome.unfinished)
  | some ret_code =>
    if ret_code ≠ SQLITE_OK then
      match errors.throw_sqlite_error E.sqlite3_errstr ret_code (sql E r.1) with
      | some e => (r.1, Outcome.raised e)
      | none => (r.1, Outcome.returned)
    else (r.1, Outcome.returned)

/-- Method `prepare_(sql)`: the prepared handle, or the exception thrown. -/
def prepare_ (E : Engine σ) (sql : String) : Except sqlite_exception (Option σ) :=
  let r := E.sqlite3_prepare_v2 (c_str sql)
  let ret_code := r.1
  let tmp := r.2.1
  let remaining := r.2.2
  match (if ret_code ≠ SQLITE_OK then
      errors.throw_sqlite_error E.sqlite3_errstr ret_code sql else none) with
  | some e => Except.error e
  | none =>
    if ¬ ((sql.data.drop remaining).all isspace = true) then
      Except.error (errors.throw_bad_sqlite
        "Multiple semicolon separated statements are unsupported" sql (-1))
    else Except.ok tmp

/-- Constructor `database_binder(std::shared_ptr<sqlite3> db, std::string const& sql)`,
run while `uncaught` exceptions are in flight. -/
def ctor (E : Engine σ) (cpp17 : Bool) (uncaught : Int) (sql : String) :
    Except sqlite_exception (database_binder σ) :=
  match prepare_ E sql with
  | Except.error e => Except.error e
  | Except.ok tmp =>
    Except.ok
      { stmt_ := tmp
        has_uncaught_detector_ := uncaught_exception_detector.init cpp17 uncaught
        idx_ := 0
        execution_started := false
        trace := [] }

/-- Move constructor `database_binder(database_binder&& other)`, run while
`uncaught` exceptions are in flight: the new object and the moved-from one.
The detector is not in the initialiser list, so it is default constructed. -/
def move_ctor (uncaught : Int) (other : database_binder σ) :
    database_binder σ × database_binder σ :=
  ({ stmt_ := other.stmt_
     has_uncaught_detector_ := other.has_uncaught_detector_.reinit uncaught
     idx_ := other.idx_
     execution_started := other.execution_started
     trace := other.trace },
   { other with stmt_ := none })

/-- Destructor `~database_binder()`, run while `uncaught` exceptions are in
flight. -/
def dtor (E : Engine σ) (fuel : Nat) (uncaught : Int) (b : database_binder σ) :
    database_binder σ × Outcome :=
  if b.used = false ∧ b.stmt_.isSome = true
      ∧ b.has_uncaught_detector_.operator_bool uncaught = false then
    execute E fuel b
  else (b, Outcome.returned)

/-- Call of the engine's bind function for the static type of `val`, at
position `idx`.  Text is passed as the pointer `val.data()` with length `-1`
and `SQLITE_TRANSIENT`; a float is converted to double. -/
def call_bind (E : Engine σ) (b : database_binder σ) (idx : Int) (val : BindVal) :
    SQL_RESULT × database_binder σ :=
  match b.stmt_, val with
  | some s, BindVal.int v =>
    ((E.sqlite3_bind_int s idx v).1,
      { b with stmt_ := some (E.sqlite3_bind_int s idx v).2,
               trace := b.trace ++ [Event.bind_int idx v] })
  | some s, BindVal.int64 v =>
    ((E.sqlite3_bind_int64 s idx v).1,
      { b with stmt_ := some (E.sqlite3_bind_int64 s idx v).2,
               trace := b.trace ++ [Event.bind_int64 idx v] })
  | some s, BindVal.float v =>
    ((E.sqlite3_bind_double s idx (E.float_to_double v)).1,
      { b with stmt_ := some (E.sqlite3_bind_double s idx (E.float_to_double v)).2,
               trace := b.trace ++ [Event.bind_double idx (E.float_to_double v)] })
  | some s, BindVal.double v =>
    ((E.sqlite3_bind_double s idx v).1,
      { b with stmt_ := some (E.sqlite3_bind_double s idx v).2,
               trace := b.trace ++ [Event.bind_double idx v] })
  | some s, BindVal.string v =>
    ((E.sqlite3_bind_text s idx (c_str v)).1,
      { b with stmt_ := some (E.sqlite3_bind_text s idx (c_str v)).2,
               trace := b.trace ++ [Event.bind_text idx (c_str v)] })
  | none, BindVal.int v => (SQLITE_MISUSE, { b with trace := b.trace ++ [Event.bind_int idx v] })
  | none, BindVal.int64 v =>
    (SQLITE_MISUSE, { b with trace := b.trace ++ [Event.bind_int64 idx v] })
  | none, BindVal.float v =>
    (SQLITE_MISUSE, { b with trace := b.trace ++ [Event.bind_double idx (E.float_to_double v)] })
  | none, BindVal.double v =>
    (SQLITE_MISUSE, { b with trace := b.trace ++ [Event.bind_double idx v] })
  | none, BindVal.string v =>
    (SQLITE_MISUSE, { b with trace := b.trace ++ [Event.bind_text idx (c_str v)] })

/-- The five non-template overloads of `operator<<(database_binder&, const T&)`. -/
def operator_shl (E : Engine σ) (val : BindVal) (b : database_binder σ) :
    database_binder σ × Outcome :=
  let i := next_index_ E b
  let r := call_bind E i.2 i.1 val
  if r.1 ≠ SQLITE_OK then
    match errors.throw_sqlite_error E.sqlite3_errstr r.1 (sql E r.2) with
    | some e => (r.2, Outcome.raised e)
    | none => (r.2, Outcome.returned)
  else (r.2, Outcome.returned)

/-- A chain `db << v1 << v2 << ...`; an exception ends the chain. -/
def bind_chain (E : Engine σ) :
    database_binder σ → List BindVal → database_binder σ × Outcome
  | b, [] => (b, Outcome.returned)
  | b, val :: vals =>
    match operator_shl E val b with
    | (b1, Outcome.returned) => bind_chain E b1 vals
    | (b1, o) => (b1, o)

/-- Operator `operator++(database_binder&, int)`. -/
def operator_inc (E : Engine σ) (fuel : Nat) (b : database_binder σ) :
    database_binder σ × Outcome :=
  execute E fuel b

end database_binder

/-- The value each destination type is assigned for a null column. -/
def CppTy.zero : CppTy → CppVal
  | CppTy.int => CppVal.int 0
  | CppTy.int64 => CppVal.int64 0
  | CppTy.float => CppVal.float 0
  | CppTy.double => CppVal.double 0
  | CppTy.string => CppVal.string ""

/-- The five non-template overloads of `get_column_from_db(db, idx, val)`,
selected by the static type of `val`; the result is the value assigned to
`val`.  A null handle reads as a null column. -/
def get_column_from_db (E : Engine σ) (db : database_binder σ) (idx : Int) (ty : CppTy) :
    CppVal :=
  match db.stmt_ with
  | none => ty.zero
  | some s =>
    match ty with
    | CppTy.int =>
      if E.sqlite3_column_type s idx = SQLITE_NULL then CppVal.int 0
      else CppVal.int (E.sqlite3_column_int s idx)
    | CppTy.int64 =>
      if E.sqlite3_column_type s idx = SQLITE_NULL then CppVal.int64 0
      else CppVal.int64 (E.sqlite3_column_int64 s idx)
    | CppTy.float =>
      if E.sqlite3_column_type s idx = SQLITE_NULL then CppVal.float 0
      else CppVal.float (E.double_to_float (E.sqlite3_column_double s idx))
    | CppTy.double =>
      if E.sqlite3_column_type s idx = SQLITE_NULL then CppVal.double 0
      else CppVal.double (E.sqlite3_column_double s idx)
    | CppTy.string =>
      if E.sqlite3_column_type s idx = SQLITE_NULL then CppVal.string ""
      else CppVal.string (c_str (E.sqlite3_column_text s idx))

/-- Recursion `tuple_iterator<Tuple, Element>::iterate(t, db)`: the first
argument lists the static types of the slots `Element`, `Element + 1`, ...
still to assign; the result lists the values assigned to them. -/
def tuple_iterator.iterate (E : Engine σ) (db : database_binder σ) :
    List CppTy → Int → List CppVal
  | [], _ => []
  | ty :: rest, element =>
    get_column_from_db E db element ty :: tuple_iterator.iterate E db rest (element + 1)

/-- Recursion `binder<Count>::run(db, function, values...)`: the first list
holds the parameter types from position `sizeof...(Values)` on, `values` the
arguments decoded so far.  The callable acts on the state `κ` it captured. -/
def binder.run (E : Engine σ) (db : database_binder σ) (function : List CppVal → κ → κ) :
    List CppTy → List CppVal → κ → κ
  | [], values, k => function values k
  | ty :: rest, values, k =>
    binder.run E db function rest
      (values ++ [get_column_from_db E db (values.length : Int) ty]) k

/-- Result of an extraction: the statement, the state captured by the
callback (the destination) and how the call ended. -/
structure Extraction (σ κ : Type) where
  db : database_binder σ
  dest : κ
  outcome : Outcome

namespace database_binder

/-- Method `extract_singer_value_(callback)`. -/
def extract_singer_value_ (E : Engine σ) (callback : database_binder σ → κ → κ)
    (b : database_binder σ) (dest : κ) : Extraction σ κ :=
  let s1 := call_step E (start_execute_ E b)
  let dest1 := if s1.1 = SQLITE_ROW then callback s1.2 dest else dest
  if s1.1 ≠ SQLITE_ROW ∧ s1.1 = SQLITE_DONE then
    { db := s1.2, dest := dest1,
      outcome := Outcome.raised (errors.throw_bad_sqlite
        "no more rows to extract, but exactly 1 row expected!" (sql E s1.2) SQLITE_DONE) }
  else
    let s2 := call_step E s1.2
    if s2.1 = SQLITE_ROW then
      { db := s2.2, dest := dest1,
        outcome := Outcome.raised (errors.throw_bad_sqlite
          "not all row etracted!" (sql E s2.2) SQLITE_ROW) }
    else if s2.1 ≠ SQLITE_DONE then
      match errors.throw_sqlite_error E.sqlite3_errstr s2.1 (sql E s2.2) with
      | some e => { db := s2.2, dest := dest1, outcome := Outcome.raised e }
      | none => { db := s2.2, dest := dest1, outcome := Outcome.returned }
    else { db := s2.2, dest := dest1, outcome := Outcome.returned }

/-- The loop of `extract_multi_values_`: the object and the captured state
after the loop and the status that ended it, `none` when the fuel ran out. -/
def step_each_row (E : Engine σ) (callback : database_binder σ → κ → κ) :
    Nat → database_binder σ → κ → database_binder σ × κ × Option SQL_RESULT
  | 0, b, k => (b, k, none)
  | fuel + 1, b, k =>
    if (call_step E b).1 = SQLITE_ROW then
      step_each_row E callback fuel (call_step E b).2 (callback (call_step E b).2 k)
    else ((call_step E b).2, k, some (call_step E b).1)

/-- Method `extract_multi_values_(callback)`. -/
def extract_multi_values_ (E : Engine σ) (fuel : Nat) (callback : database_binder σ → κ → κ)
    (b : database_binder σ) (dest : κ) : Extraction σ κ :=
  let r := step_each_row E callback fuel (start_execute_ E b) dest
  match r.2.2 with
  | none => { db := r.1, dest := r.2.1, outcome := Outcome.unfinished }
  | some ret_code =>
    if ret_code ≠ SQLITE_DONE then
      match errors.throw_sqlite_error E.sqlite3_errstr ret_code (sql E r.1) with
      | some e => { db := r.1, dest := r.2.1, outcome := Outcome.raised e }
      | none => { db := r.1, dest := r.2.1, outcome := Outcome.returned }
    else { db := r.1, dest := r.2.1, outcome := Outcome.returned }

/-- Operator `operator>>(result_ty& value)`; `ty` is `result_ty`, `value` the
destination before the call. -/
def operator_shr_value (E : Engine σ) (ty : CppTy) (b : database_binder σ) (value : CppVal) :
    Extraction σ CppVal :=
  extract_singer_value_ E (fun db _ => get_column_from_db E db 0 ty) b value

/-- Operator `operator>>(std::tuple<Types...>&& values)`; `tys` is `Types...`,
`values` the slots before the call. -/
def operator_shr_tuple (E : Engine σ) (tys : List CppTy) (b : database_binder σ)
    (values : List CppVal) : Extraction σ (List CppVal) :=
  extract_singer_value_ E (fun db _ => tuple_iterator.iterate E db tys 0) b values

/-- Operator `operator>>(Function&& func)`; `tys` lists the parameter types of
`func` recovered by `function_traits`. -/
def operator_shr_function (E : Engine σ) (fuel : Nat) (tys : List CppTy)
    (func : List CppVal → κ → κ) (b : database_binder σ) (k : κ) : Extraction σ κ :=
  extract_multi_values_ E fuel (fun db k1 => binder.run E db func tys [] k1) b k

end database_binder

/-! ## Sequences of public operations -/

/-- A public operation on a statement object. -/
inductive Op where
  | bind (val : BindVal)
  | execute
  | value (ty : CppTy)
  | tuple (tys : List CppTy)
  | function (tys : List CppTy)
  | used (state : Bool)
deriving DecidableEq, Repr

/-- Run one public operation; extracted values are dropped, the callback of a
callback extraction collects its argument lists. -/
def Op.apply (E : Engine σ) (fuel : Nat) (b : database_binder σ) :
    Op → database_binder σ × Outcome
  | Op.bind val => b.operator_shl E val
  | Op.execute => b.execute E fuel
  | Op.value ty =>
    ((b.operator_shr_value E ty ty.zero).db, (b.operator_shr_value E ty ty.zero).outcome)
  | Op.tuple tys =>
    ((b.operator_shr_tuple E tys []).db, (b.operator_shr_tuple E tys []).outcome)
  | Op.function tys =>
    ((b.operator_shr_function E fuel tys (fun args (acc : List (List CppVal)) => acc ++ [args])
        []).db,
     (b.operator_shr_function E fuel tys (fun args (acc : List (List CppVal)) => acc ++ [args])
        []).outcome)
  | Op.used state => (b.set_used E state, Outcome.returned)

/-- Run a sequence of public operations on one object.  An exception is
caught by the caller and the sequence goes on; a call that does not finish
within the fuel ends it. -/
def run_ops (E : Engine σ) (fuel : Nat) : database_binder σ → List Op → database_binder σ
  | b, [] => b
  | b, op :: ops =>
    match op.apply E fuel b with
    | (b1, Outcome.unfinished) => b1
    | (b1, _) => run_ops E fuel b1 ops

/-! ## Engine runs -/

/-- Stepping from `s` reports one row per element of the list, the element
being the statement positioned on that row, and then stops with `status` in
state `t`. -/
def Run (E : Engine σ) : σ → List σ → SQL_RESULT → σ → Prop
  | s, [], status, t => E.sqlite3_step s = (status, t) ∧ status ≠ SQLITE_ROW
  | s, r :: rows, status, t => E.sqlite3_step s = (SQLITE_ROW, r) ∧ Run E r rows status t

/-! ## A reference engine

A small executable model of a prepared statement, used to instantiate the
interface at concrete inputs.  A statement is a program from the bound
parameters to the statuses and rows that stepping reports. -/

/-- A value stored by the reference engine. -/
inductive SqlVal where
  | null
  | integer (val : Int)
  | real (val : Nat)
  | text (val : String)
deriving DecidableEq, Repr

/-- Wrap an integer into the signed range of `bits` bits. -/
def wrap_signed (bits : Nat) (v : Int) : Int :=
  (v + 2 ^ (bits - 1)) % 2 ^ bits - 2 ^ (bits - 1)

/-- State of a statement of the reference engine.  `pending` is `none` while
the statement is ready to run and holds the outcomes still to report once it
is running; `row` is the current row. -/
structure SimStmt where
  sql : String
  nparams : Nat
  program : List SqlVal → List (SQL_RESULT × List SqlVal)
  bindings : List SqlVal
  pending : Option (List (SQL_RESULT × List SqlVal))
  row : List SqlVal

namespace SimStmt

/-- One step: a ready statement first runs its program on the bindings. -/
def step (s : SimStmt) : SQL_RESULT × SimStmt :=
  match s.pending.getD (s.program s.bindings) with
  | [] => (SQLITE_MISUSE, { s with pending := some [] })
  | (rc, r) :: rest => (rc, { s with pending := some rest, row := r })

/-- Reset: the statement is ready to run again; bindings are kept. -/
def reset (s : SimStmt) : SimStmt := { s with pending := none, row := [] }

/-- Clear bindings: every parameter becomes null. -/
def clear_bindings (s : SimStmt) : SimStmt :=
  { s with bindings := List.replicate s.nparams SqlVal.null }

/-- Bind `v` at the 1-based position `idx`: misuse on a running statement,
range error outside `1..nparams`. -/
def bind (s : SimStmt) (idx : Int) (v : SqlVal) : SQL_RESULT × SimStmt :=
  if s.pending.isSome = true then (SQLITE_MISUSE, s)
  else if 1 ≤ idx ∧ idx ≤ (s.nparams : Int) then
    (SQLITE_OK, { s with bindings := s.bindings.set (idx - 1).toNat v })
  else (SQLITE_RANGE, s)

/-- Column `idx` of the current row, null outside the row. -/
def column (s : SimStmt) (idx : Int) : SqlVal :=
  if 0 ≤ idx then s.row.getD idx.toNat SqlVal.null else SqlVal.null

/-- Datatype code of a column. -/
def column_type (s : SimStmt) (idx : Int) : Int :=
  match s.column idx with
  | SqlVal.null => SQLITE_NULL
  | SqlVal.integer _ => SQLITE_INTEGER
  | SqlVal.real _ => SQLITE_FLOAT
  | SqlVal.text _ => SQLITE_TEXT

/-- Column read as a 32-bit integer: the low 32 bits of an integer. -/
def column_int (s : SimStmt) (idx : Int) : Int :=
  match s.column idx with
  | SqlVal.integer v => wrap_signed 32 v
  | _ => 0

/-- Column read as a 64-bit integer. -/
def column_int64 (s : SimStmt) (idx : Int) : Int :=
  match s.column idx with
  | SqlVal.integer v => wrap_signed 64 v
  | _ => 0

/-- Column read as a double. -/
def column_double (s : SimStmt) (idx : Int) : Nat :=
  match s.column idx with
  | SqlVal.real v => v
  | _ => 0

/-- Column read as text. -/
def column_text (s : SimStmt) (idx : Int) : String :=
  match s.column idx with
  | SqlVal.text v => v
  | _ => ""

/-- A statement that reports the given statuses and rows, whatever is bound. -/
def script (sql : String) (outcomes : List (SQL_RESULT × List SqlVal)) : SimStmt :=
  { sql := sql, nparams := 0, program := fun _ => outcomes, bindings := [],
    pending := none, row := [] }

/-- The statement `SELECT ?, ?`: one row, whose column `i` is parameter
`i + 1`, then done. -/
def select_params : SimStmt :=
  { sql := "SELECT ?, ?", nparams := 2,
    program := fun binds => [(SQLITE_ROW, binds), (SQLITE_DONE, [])],
    bindings := [SqlVal.null, SqlVal.null], pending := none, row := [] }

end SimStmt

/-- The reference engine over a compiler from SQL text to statements. -/
def sim_engine (compile : String → SQL_RESULT × Option SimStmt × Nat) : Engine SimStmt where
  sqlite3_prepare_v2 := compile
  sqlite3_sql := SimStmt.sql
  sqlite3_errstr := fun _ => "engine error"
  sqlite3_step := SimStmt.step
  sqlite3_reset := SimStmt.reset
  sqlite3_clear_bindings := SimStmt.clear_bindings
  sqlite3_bind_int := fun s idx v => s.bind idx (SqlVal.integer v)
  sqlite3_bind_int64 := fun s idx v => s.bind idx (SqlVal.integer v)
  sqlite3_bind_double := fun s idx v => s.bind idx (SqlVal.real v)
  sqlite3_bind_text := fun s idx v => s.bind idx (SqlVal.text v)
  sqlite3_column_type := SimStmt.column_type
  sqlite3_column_int := SimStmt.column_int
  sqlite3_column_int64 := SimStmt.column_int64
  sqlite3_column_double := SimStmt.column_double
  sqlite3_column_text := SimStmt.column_text
  double_to_float := fun v => v % 2 ^ 32
  float_to_double := fun v => v

/-- The statement `INSERT INTO t VALUES (?)` of the reference engine: one
parameter, no rows. -/
def sim_insert : SimStmt :=
  { sql := "INSERT INTO t VALUES (?)", nparams := 1,
    program := fun _ => [(SQLITE_DONE, [])],
    bindings := [SqlVal.null], pending := none, row := [] }

/-- A compiler that knows four texts; any other text is answered with the
generic error code 1. -/
def sim_compile (sql : String) : SQL_RESULT × Option SimStmt × Nat :=
  if sql = "SELECT ?, ?" then (SQLITE_OK, some SimStmt.select_params, sql.length)
  else if sql = "INSERT INTO t VALUES (?)" then (SQLITE_OK, some sim_insert, sql.length)
  else if sql = "SELECT 1; SELECT 2;" then
    (SQLITE_OK, some (SimStmt.script "SELECT 1;"
      [(SQLITE_ROW, [SqlVal.integer 1]), (SQLITE_DONE, [])]), 9)
  else if sql = "SELECT 1;  " then
    (SQLITE_OK, some (SimStmt.script "SELECT 1;"
      [(SQLITE_ROW, [SqlVal.integer 1]), (SQLITE_DONE, [])]), 9)
  else (1, none, 0)

/-- The reference engine with `sim_compile`. -/
def sim : Engine SimStmt := sim_engine sim_compile

/-- A never-started statement object on the reference engine. -/
def sim_binder (s : SimStmt) (d : uncaught_exception_detector) : database_binder SimStmt :=
  { stmt_ := some s, has_uncaught_detector_ := d, idx_ := 0, execution_started := false,
    trace := [] }

/-- The object `b` with its statement positioned at engine state `r`. -/
def database_binder.on_row (b : database_binder σ) (r : σ) : database_binder σ :=
  { b with stmt_ := some r }

/-- A statement of the reference engine with one row holding the integer 1. -/
def sim_one_row : SimStmt :=
  SimStmt.script "SELECT 1;" [(SQLITE_ROW, [SqlVal.integer 1]), (SQLITE_DONE, [])]


/-- The arguments of a callback with parameter types `tys` on row `r`:
position `i` holds the decode of column `i` at type `tys[i]`. -/
def row_arguments (E : Engine σ) (b : database_binder σ) (tys : List CppTy) (r : σ) :
    List CppVal :=
  tys.enum.map (fun p => get_column_from_db E (b.on_row r) (p.1 : Int) p.2)

/-- A statement of the reference engine with two rows of an integer and a text. -/
def sim_two_rows : SimStmt :=
  SimStmt.script "SELECT a, b FROM t;"
    [(SQLITE_ROW, [SqlVal.integer 1, SqlVal.text "x"]),
     (SQLITE_ROW, [SqlVal.integer 2, SqlVal.null]), (SQLITE_DONE, [])]

/-- A statement of the reference engine whose first step reports busy and
whose second step reports done. -/
def sim_busy_then_done : SimStmt :=
  SimStmt.script "SELECT a FROM t WHERE 0;" [(SQLITE_BUSY, []), (SQLITE_DONE, [])]

/-- A statement of the reference engine whose first step reports busy and
whose second step reports a row. -/
def sim_busy_then_row : SimStmt :=
  SimStmt.script "SELECT 1;" [(SQLITE_BUSY, []), (SQLITE_ROW, [SqlVal.integer 1]),
    (SQLITE_DONE, [])]

/-- A statement of the reference engine whose first step reports notice. -/
def sim_notice : SimStmt :=
  SimStmt.script "INSERT INTO t VALUES (1);" [(SQLITE_NOTICE, [])]

/-- A statement of the reference engine without rows. -/
def sim_no_rows : SimStmt :=
  SimStmt.script "SELECT a FROM t WHERE 0;" [(SQLITE_DONE, [])]

/-- The engine call that binds `val` at position `idx`. -/
def bind_event (E : Engine σ) (idx : Int) : BindVal → Event
  | BindVal.int v => Event.bind_int idx v
  | BindVal.int64 v => Event.bind_int64 idx v
  | BindVal.float v => Event.bind_double idx (E.float_to_double v)
  | BindVal.double v => Event.bind_double idx v
  | BindVal.string v => Event.bind_text idx (c_str v)

/-- The text made of `a`, a NUL character and `b`. -/
def text_with_nul : String := String.mk ['a', Char.ofNat 0, 'b']

/-! ## Shape of a trace between two starts -/

/-- Whether an event is a bind call. -/
def Event.is_bind : Event → Bool
  | Event.bind_int _ _ => true
  | Event.bind_int64 _ _ => true
  | Event.bind_double _ _ => true
  | Event.bind_text _ _ => true
  | _ => false

/-- The events of `k` consecutive rounds of reset followed by clear-bindings. -/
def reset_clear : Nat → List Event
  | 0 => []
  | k + 1 => Event.reset :: Event.clear_bindings :: reset_clear k

/-- Shape of the events between two consecutive starts: the steps of the first
pass, then at least one round of reset and clear-bindings (exactly one when
`once` holds), then bind calls only. -/
def well_reset (once : Prop) (mid : List Event) : Prop :=
  ∃ (n k : Nat) (binds : List Event), 1 ≤ k ∧ (once → k = 1) ∧
    mid = List.replicate n Event.step ++ reset_clear k ++ binds ∧
    ∀ e ∈ binds, e.is_bind = true

/-- Every stretch of the trace between two consecutive starts is well reset. -/
def reuse_ok (once : Prop) (tr : List Event) : Prop :=
  ∀ pre mid post, tr = pre ++ Event.start :: mid ++ Event.start :: post →
    Event.start ∉ mid → well_reset once mid

/-- Invariant on the events since the last start, with the cursor and the
started flag: either only steps were issued and the object is started with
cursor zero, or the rounds of reset and clear-bindings have begun. -/
def open_segment (once : Prop) (cur : List Event) (idx : Int) (st : Bool) : Prop :=
  (∃ n : Nat, cur = List.replicate n Event.step ∧ st = true ∧ idx = 0) ∨
  (∃ (n k : Nat) (binds : List Event), 1 ≤ k ∧
    cur = List.replicate n Event.step ++ reset_clear k ++ binds ∧
    (∀ e ∈ binds, e.is_bind = true) ∧ (binds ≠ [] → 1 ≤ idx) ∧
    (once → k = 1 ∧ (st = false ∨ 1 ≤ idx)))

/-- Invariant of a statement object under public operations, on its trace,
cursor and started flag. -/
def reuse_inv (once : Prop) (tr : List Event) (idx : Int) (st : Bool) : Prop :=
  0 ≤ idx ∧ reuse_ok once tr ∧
    (Event.start ∉ tr ∨
      ∃ hist cur, tr = hist ++ Event.start :: cur ∧ open_segment once cur idx st)

/-- Invariant right after `next_index_`, on the trace and on the cursor
before its increment: the rounds of reset and clear-bindings have begun. -/
def reuse_mid (once : Prop) (tr : List Event) (idx : Int) : Prop :=
  0 ≤ idx ∧ reuse_ok once tr ∧
    (Event.start ∉ tr ∨ ∃ (hist : List Event) (n k : Nat) (binds : List Event),
      tr = hist ++ Event.start :: (List.replicate n Event.step ++ reset_clear k ++ binds) ∧
      1 ≤ k ∧ (once → k = 1) ∧ (∀ e ∈ binds, e.is_bind = true) ∧
      (binds ≠ [] → 1 ≤ idx))

/-- The trace after `next_index_`: a started object with cursor zero is reset
and cleared first. -/
def trace_next (tr : List Event) (idx : Int) (st : Bool) : List Event :=
  if st = true ∧ idx = 0 then tr ++ [Event.reset, Event.clear_bindings] else tr

/-- A statement of the reference engine: `SELECT ?, ?` run twice, with both
parameters bound for the first pass and only the first for the second. -/
def sim_second_pass : database_binder SimStmt :=
  (database_binder.bind_chain sim
    (database_binder.operator_shr_tuple sim [CppTy.int, CppTy.string]
      (database_binder.bind_chain sim
        (sim_binder SimStmt.select_params uncaught_exception_detector.legacy)
        [BindVal.int 1, BindVal.string "x"]).1 []).db
    [BindVal.int 7]).1

/-! ## Basic facts about the engine calls -/

namespace database_binder

theorem call_step_some (E : Engine σ) (b : database_binder σ) (s : σ) (h : b.stmt_ = some s) :
    call_step E b = ((E.sqlite3_step s).1,
      { b with stmt_ := some (E.sqlite3_step s).2, trace := b.trace ++ [Event.step] }) := by
  simp [call_step, h]

theorem call_step_trace (E : Engine σ) (b : database_binder σ) :
    (call_step E b).2.trace = b.trace ++ [Event.step] := by
  unfold call_step; cases b.stmt_ <;> rfl

end database_binder

theorem get_column_from_db_congr (E : Engine σ) (a b : database_binder σ) (idx : Int)
    (ty : CppTy) (h : a.stmt_ = b.stmt_) :
    get_column_from_db E a idx ty = get_column_from_db E b idx ty := by
  unfold get_column_from_db; rw [h]

/-! ## Scalar extraction -/

open database_binder in
/-- Claim C1: scalar extraction enforces exactly-one-row cardinality.  For an
engine run of `rows` followed by done: with no row the logic error for a
missing row is raised after one step and no callback runs (the destination is
untouched); with one row the call returns and the destination is the decode
of column 0 of that row; with two or more rows the logic error for a surplus
row is raised after exactly two steps. -/
theorem scalar_extraction_cardinality (E : Engine σ) (b : database_binder σ) (s0 t : σ)
    (rows : List σ) (ty : CppTy) (value : CppVal)
    (hstart : (b.start_execute_ E).stmt_ = some s0)
    (hrun : Run E s0 rows SQLITE_DONE t) :
    (rows = [] →
      (∀ (κ : Type) (callback : database_binder σ → κ → κ) (dest : κ),
        (b.extract_singer_value_ E callback dest).dest = dest) ∧
      (b.operator_shr_value E ty value).outcome = Outcome.raised
        (sqlite_exception.of_msg "no more rows to extract, but exactly 1 row expected!"
          (E.sqlite3_sql t) SQLITE_DONE) ∧
      (b.operator_shr_value E ty value).dest = value ∧
      (b.operator_shr_value E ty value).db.trace
        = (b.start_execute_ E).trace ++ [Event.step]) ∧
    (∀ r, rows = [r] →
      (b.operator_shr_value E ty value).outcome = Outcome.returned ∧
      (b.operator_shr_value E ty value).dest = get_column_from_db E (b.on_row r) 0 ty ∧
      (b.operator_shr_value E ty value).db.trace
        = (b.start_execute_ E).trace ++ [Event.step, Event.step]) ∧
    (∀ r1 r2 rest, rows = r1 :: r2 :: rest →
      (b.operator_shr_value E ty value).outcome = Outcome.raised
        (sqlite_exception.of_msg "not all row etracted!" (E.sqlite3_sql r2) SQLITE_ROW) ∧
      (b.operator_shr_value E ty value).db.trace
        = (b.start_execute_ E).trace ++ [Event.step, Event.step]) := by
  unfold operator_shr_value extract_singer_value_
  generalize start_execute_ E b = b0 at hstart ⊢
  obtain ⟨st, d, i, e, tr⟩ := b0
  simp only at hstart
  subst hstart
  refine ⟨?_, ?_, ?_⟩
  · intro hr
    subst hr
    obtain ⟨hs, -⟩ := hrun
    simp [call_step, hs, sql, errors.throw_bad_sqlite]
  · intro r hr
    subst hr
    obtain ⟨hs, hs2, -⟩ := hrun
    simp [call_step, hs, hs2, sql, errors.throw_bad_sqlite, get_column_from_db, on_row]
  · intro r1 r2 rest hr
    subst hr
    obtain ⟨hs, hs2, -⟩ := hrun
    simp [call_step, hs, hs2, sql, errors.throw_bad_sqlite]

/-- Witness for C1 on the reference engine: one row holding 1. -/
theorem scalar_extraction_cardinality_witness :
    ((sim_binder sim_one_row uncaught_exception_detector.legacy).operator_shr_value sim
        CppTy.int (CppVal.int 0)).outcome = Outcome.returned :=
  ((scalar_extraction_cardinality sim (sim_binder sim_one_row uncaught_exception_detector.legacy)
      sim_one_row (SimStmt.step (SimStmt.step sim_one_row).2).2
      [(SimStmt.step sim_one_row).2] CppTy.int (CppVal.int 0) rfl
      ⟨rfl, rfl, by decide⟩).2.1 _ rfl).1

/-! ## Callback extraction -/

theorem binder_run_eq (E : Engine σ) (db : database_binder σ)
    (function : List CppVal → κ → κ) :
    ∀ (rest : List CppTy) (values : List CppVal) (k : κ),
      binder.run E db function rest values k
        = function (values ++ (rest.enumFrom values.length).map
            (fun p => get_column_from_db E db (p.1 : Int) p.2)) k := by
  intro rest
  induction rest with
  | nil => intro values k; simp [binder.run]
  | cons ty rest ih =>
    intro values k
    rw [binder.run, ih]
    simp [List.enumFrom]

theorem binder_run_on_row (E : Engine σ) (a b : database_binder σ) (r : σ)
    (function : List CppVal → κ → κ) (tys : List CppTy) (k : κ) (h : a.stmt_ = some r) :
    binder.run E a function tys [] k = function (row_arguments E b tys r) k := by
  rw [binder_run_eq]
  simp only [row_arguments, List.nil_append, List.length_nil, List.enum]
  congr 1
  apply List.map_congr_left
  intro p _
  exact get_column_from_db_congr E _ _ _ _ (by simp [database_binder.on_row, h])

namespace database_binder

theorem step_each_row_run (E : Engine σ) (callback : database_binder σ → κ → κ)
    (g : σ → κ → κ)
    (hcb : ∀ (a : database_binder σ) (r : σ) (k : κ),
      a.stmt_ = some r → callback a k = g r k) :
    ∀ (rows : List σ) (s : σ) (b : database_binder σ) (k : κ) (fuel : Nat)
      (status : SQL_RESULT) (t : σ),
      b.stmt_ = some s → Run E s rows status t → rows.length < fuel →
      step_each_row E callback fuel b k
        = ({ b with stmt_ := some t,
                    trace := b.trace ++ List.replicate (rows.length + 1) Event.step },
           rows.foldl (fun acc r => g r acc) k, some status) := by
  intro rows
  induction rows with
  | nil =>
    intro s b k fuel status t hb hrun hfuel
    obtain ⟨hs, hne⟩ := hrun
    obtain ⟨n, rfl⟩ : ∃ n, fuel = n + 1 := ⟨fuel - 1, by simp at hfuel; omega⟩
    simp [step_each_row, call_step_some E b s hb, hs, hne]
  | cons r rows ih =>
    intro s b k fuel status t hb hrun hfuel
    obtain ⟨hs, hrest⟩ := hrun
    obtain ⟨n, rfl⟩ : ∃ n, fuel = n + 1 := ⟨fuel - 1, by simp at hfuel; omega⟩
    have hn : rows.length < n := by simp at hfuel; omega
    rw [step_each_row, call_step_some E b s hb, hs]
    simp only [if_true]
    rw [ih r _ _ n status t rfl hrest hn, hcb _ r k rfl]
    simp [List.replicate_succ]

end database_binder

open database_binder in
/-- Claim C4: callback extraction.  For an engine run of `rows` followed by
done and enough fuel for its steps, the call returns without error, the
callback has been applied once per row in row order to the arguments decoded
positionally from that row, and it stepped once per row plus once for done.
For the callback that records its argument lists, the record is the list of
decoded rows. -/
theorem callback_extraction_rows (E : Engine σ) (b : database_binder σ) (s0 t : σ)
    (rows : List σ) (tys : List CppTy) (func : List CppVal → κ → κ) (k : κ) (fuel : Nat)
    (hstart : (b.start_execute_ E).stmt_ = some s0)
    (hrun : Run E s0 rows SQLITE_DONE t) (hfuel : rows.length < fuel) :
    (b.operator_shr_function E fuel tys func k).outcome = Outcome.returned ∧
    (b.operator_shr_function E fuel tys func k).dest
      = rows.foldl (fun acc r => func (row_arguments E b tys r) acc) k ∧
    (b.operator_shr_function E fuel tys func k).db.trace
      = (b.start_execute_ E).trace ++ List.replicate (rows.length + 1) Event.step ∧
    (b.operator_shr_function E fuel tys
        (fun args (acc : List (List CppVal)) => acc ++ [args]) []).dest
      = rows.map (row_arguments E b tys) := by
  have key : ∀ (κ1 : Type) (f : List CppVal → κ1 → κ1) (k1 : κ1),
      step_each_row E (fun db k2 => binder.run E db f tys [] k2) fuel (b.start_execute_ E) k1
        = ({ b.start_execute_ E with
              stmt_ := some t,
              trace := (b.start_execute_ E).trace
                ++ List.replicate (rows.length + 1) Event.step },
           rows.foldl (fun acc r => f (row_arguments E b tys r) acc) k1, some SQLITE_DONE) :=
    fun κ1 f k1 =>
      step_each_row_run E _ (fun r k2 => f (row_arguments E b tys r) k2)
        (fun a r k2 h => binder_run_on_row E a b r f tys k2 h)
        rows s0 _ k1 fuel SQLITE_DONE t hstart hrun hfuel
  refine ⟨?_, ?_, ?_, ?_⟩
  · simp [operator_shr_function, extract_multi_values_, key]
  · simp [operator_shr_function, extract_multi_values_, key]
  · simp [operator_shr_function, extract_multi_values_, key]
  · have hfold : ∀ (l : List σ) (acc : List (List CppVal)),
        l.foldl (fun acc r => acc ++ [row_arguments E b tys r]) acc
          = acc ++ l.map (row_arguments E b tys) := by
      intro l
      induction l with
      | nil => intro acc; simp
      | cons r l ih => intro acc; simp [ih]
    simp [operator_shr_function, extract_multi_values_, key, hfold]

/-- Witness for C4 on the reference engine: two rows, a callback of an
integer and a text. -/
theorem callback_extraction_rows_witness :
    ((sim_binder sim_two_rows uncaught_exception_detector.legacy).operator_shr_function sim 3
        [CppTy.int, CppTy.string] (fun args (acc : List (List CppVal)) => acc ++ [args]) []).dest
      = [[CppVal.int 1, CppVal.string "x"], [CppVal.int 2, CppVal.string ""]] :=
  (callback_extraction_rows sim (sim_binder sim_two_rows uncaught_exception_detector.legacy)
      sim_two_rows (SimStmt.step (SimStmt.step (SimStmt.step sim_two_rows).2).2).2
      [(SimStmt.step sim_two_rows).2, (SimStmt.step (SimStmt.step sim_two_rows).2).2]
      [CppTy.int, CppTy.string] (fun args (acc : List (List CppVal)) => acc ++ [args]) [] 3 rfl
      ⟨rfl, rfl, rfl, by decide⟩ (by decide)).2.2.2

/-! ## Step failures -/

namespace database_binder

theorem step_while_row_run (E : Engine σ) :
    ∀ (rows : List σ) (s : σ) (b : database_binder σ) (fuel : Nat)
      (status : SQL_RESULT) (t : σ),
      b.stmt_ = some s → Run E s rows status t → rows.length < fuel →
      step_while_row E fuel b
        = ({ b with stmt_ := some t,
                    trace := b.trace ++ List.replicate (rows.length + 1) Event.step },
           some status) := by
  intro rows
  induction rows with
  | nil =>
    intro s b fuel status t hb hrun hfuel
    obtain ⟨hs, hne⟩ := hrun
    obtain ⟨n, rfl⟩ : ∃ n, fuel = n + 1 := ⟨fuel - 1, by simp at hfuel; omega⟩
    simp [step_while_row, call_step_some E b s hb, hs, hne]
  | cons r rows ih =>
    intro s b fuel status t hb hrun hfuel
    obtain ⟨hs, hrest⟩ := hrun
    obtain ⟨n, rfl⟩ : ∃ n, fuel = n + 1 := ⟨fuel - 1, by simp at hfuel; omega⟩
    have hn : rows.length < n := by simp at hfuel; omega
    rw [step_while_row, call_step_some E b s hb, hs]
    simp only [if_true]
    rw [ih r _ n status t rfl hrest hn]
    simp [List.replicate_succ]

theorem start_execute_started (E : Engine σ) (b : database_binder σ) :
    (b.start_execute_ E).execution_started = true := by
  simp [start_execute_, set_used]

end database_binder

open database_binder in
/-- Claim C8, the code at the failing inputs: when the first step of a scalar
or record extraction reports busy, a second step is issued all the same.  If
that one reports done the extraction returns normally with the destination
untouched; if it reports a row the logic error for a surplus row is raised.
No exception carries the busy status. -/
theorem single_row_extraction_steps_after_failure :
    ((sim_binder sim_busy_then_done uncaught_exception_detector.legacy).operator_shr_value sim
        CppTy.int (CppVal.int 7)).outcome = Outcome.returned ∧
    ((sim_binder sim_busy_then_done uncaught_exception_detector.legacy).operator_shr_value sim
        CppTy.int (CppVal.int 7)).dest = CppVal.int 7 ∧
    ((sim_binder sim_busy_then_done uncaught_exception_detector.legacy).operator_shr_value sim
        CppTy.int (CppVal.int 7)).db.trace = [Event.start, Event.step, Event.step] ∧
    ((sim_binder sim_busy_then_row uncaught_exception_detector.legacy).operator_shr_value sim
        CppTy.int (CppVal.int 7)).outcome
      = Outcome.raised (sqlite_exception.of_msg "not all row etracted!" "SELECT 1;" SQLITE_ROW) ∧
    ((sim_binder sim_busy_then_row uncaught_exception_detector.legacy).operator_shr_value sim
        CppTy.int (CppVal.int 7)).db.trace = [Event.start, Event.step, Event.step] ∧
    ((sim_binder sim_busy_then_done uncaught_exception_detector.legacy).operator_shr_tuple sim
        [CppTy.int] [CppVal.int 7]).outcome = Outcome.returned ∧
    ((sim_binder sim_busy_then_done uncaught_exception_detector.legacy).operator_shr_tuple sim
        [CppTy.int] [CppVal.int 7]).db.trace = [Event.start, Event.step, Event.step] := by
  refine ⟨rfl, rfl, rfl, rfl, rfl, rfl, rfl⟩

open database_binder in
/-- Claim C9 as stated fails: stepping stops with notice, which is none of
success, row and done, and `execute` returns normally instead of raising. -/
theorem execute_notice_counterexample :
    (SimStmt.step sim_notice).1 = SQLITE_NOTICE ∧
    SQLITE_NOTICE ≠ SQLITE_OK ∧ SQLITE_NOTICE ≠ SQLITE_ROW ∧
    SQLITE_NOTICE ≠ SQLITE_DONE ∧
    ((sim_binder sim_notice uncaught_exception_detector.legacy).execute sim 2).2
      = Outcome.returned := by
  refine ⟨rfl, by decide, by decide, by decide, rfl⟩

open database_binder in
/-- Claim C9, amended: `execute` marks the statement started, steps once per
reported row and once more for the status that stops it, decodes nothing, and
raises a step error carrying that status and the SQL text if and only if the
status is none of success, row, notice and done; otherwise it returns
normally. -/
theorem execute_step_error (E : Engine σ) (b : database_binder σ) (s0 t : σ)
    (rows : List σ) (status : SQL_RESULT) (fuel : Nat)
    (hstart : (b.start_execute_ E).stmt_ = some s0)
    (hrun : Run E s0 rows status t) (hfuel : rows.length < fuel) :
    (b.execute E fuel).1.execution_started = true ∧
    (b.execute E fuel).1.trace
      = (b.start_execute_ E).trace ++ List.replicate (rows.length + 1) Event.step ∧
    ((b.execute E fuel).2
        = Outcome.raised (sqlite_exception.of_code E.sqlite3_errstr status (E.sqlite3_sql t))
      ↔ (status ≠ SQLITE_OK ∧ status ≠ SQLITE_ROW ∧ status ≠ SQLITE_NOTICE
          ∧ status ≠ SQLITE_DONE)) ∧
    ((status = SQLITE_OK ∨ status = SQLITE_NOTICE ∨ status = SQLITE_DONE)
      → (b.execute E fuel).2 = Outcome.returned) := by
  have key := step_while_row_run E rows s0 _ fuel status t hstart hrun hfuel
  have hst := start_execute_started E b
  unfold execute
  simp only [key]
  by_cases h0 : status = SQLITE_OK
  · subst h0; simp [hst]
  · by_cases h1 : status = SQLITE_ROW
    · subst h1; simp [hst, errors.throw_sqlite_error]
    · by_cases h2 : status = SQLITE_NOTICE
      · subst h2; simp [hst, errors.throw_sqlite_error]
      · by_cases h3 : status = SQLITE_DONE
        · subst h3; simp [hst, errors.throw_sqlite_error]
        · simp [hst, errors.throw_sqlite_error, h0, h1, h2, h3, sql]

/-- Witness for C9 (amended) on the reference engine: a first step reporting
busy makes `execute` raise the step error with code 5. -/
theorem execute_step_error_witness :
    ((sim_binder sim_busy_then_done uncaught_exception_detector.legacy).execute sim 1).2
      = Outcome.raised (sqlite_exception.of_code sim.sqlite3_errstr SQLITE_BUSY
          "SELECT a FROM t WHERE 0;") :=
  (execute_step_error sim (sim_binder sim_busy_then_done uncaught_exception_detector.legacy)
      sim_busy_then_done (SimStmt.step sim_busy_then_done).2 [] SQLITE_BUSY 1 rfl
      ⟨rfl, by decide⟩ (by decide)).2.2.1.mpr (by decide)

/-! ## Logic errors -/

open database_binder in
/-- Claim C10 as stated fails: the logic error raised by a scalar extraction
over an empty result carries the code 101, the engine status done, in both
`get_extended_code` and `get_code`. -/
theorem logic_error_code_counterexample :
    ((sim_binder sim_no_rows uncaught_exception_detector.legacy).operator_shr_value sim
        CppTy.int (CppVal.int 0)).outcome
      = Outcome.raised (sqlite_exception.of_msg
          "no more rows to extract, but exactly 1 row expected!"
          "SELECT a FROM t WHERE 0;" 101) ∧
    (sqlite_exception.of_msg "no more rows to extract, but exactly 1 row expected!"
        "SELECT a FROM t WHERE 0;" 101).get_extended_code = SQLITE_DONE ∧
    (sqlite_exception.of_msg "no more rows to extract, but exactly 1 row expected!"
        "SELECT a FROM t WHERE 0;" 101).get_code = SQLITE_DONE ∧
    is_engine_status SQLITE_DONE := by
  refine ⟨rfl, rfl, by decide, by decide⟩

open database_binder in
/-- Claim C10, amended: each logic error carries its message and the SQL text.
The error for several statements carries the sentinel `-1`, read as 255 by
`get_code`, and neither is an engine status; the error for a missing row
carries done (101) and the error for a surplus row carries row (100). -/
theorem logic_error_contents (E : Engine σ) (b : database_binder σ) (cpp17 : Bool)
    (uncaught : Int) (text : String) (callback : database_binder σ → κ → κ) (dest : κ) :
    (∀ tmp remaining, E.sqlite3_prepare_v2 (c_str text) = (SQLITE_OK, tmp, remaining) →
      (text.data.drop remaining).all isspace = false →
      ∃ e, ctor E cpp17 uncaught text = Except.error e ∧
        e.what = "Multiple semicolon separated statements are unsupported" ∧
        e.get_sql = text ∧ e.get_extended_code = -1 ∧ e.get_code = 255 ∧
        ¬ is_engine_status e.get_extended_code ∧ ¬ is_engine_status e.get_code) ∧
    (∀ s0 t, (b.start_execute_ E).stmt_ = some s0 → E.sqlite3_step s0 = (SQLITE_DONE, t) →
      ∃ e, (b.extract_singer_value_ E callback dest).outcome = Outcome.raised e ∧
        e.what = "no more rows to extract, but exactly 1 row expected!" ∧
        e.get_sql = E.sqlite3_sql t ∧ e.get_extended_code = SQLITE_DONE ∧
        e.get_code = SQLITE_DONE) ∧
    (∀ s0 r1 r2, (b.start_execute_ E).stmt_ = some s0 →
      E.sqlite3_step s0 = (SQLITE_ROW, r1) → E.sqlite3_step r1 = (SQLITE_ROW, r2) →
      ∃ e, (b.extract_singer_value_ E callback dest).outcome = Outcome.raised e ∧
        e.what = "not all row etracted!" ∧
        e.get_sql = E.sqlite3_sql r2 ∧ e.get_extended_code = SQLITE_ROW ∧
        e.get_code = SQLITE_ROW) := by
  refine ⟨?_, ?_, ?_⟩
  · intro tmp remaining hp htail
    refine ⟨sqlite_exception.of_msg
      "Multiple semicolon separated statements are unsupported" text (-1), ?_, rfl, rfl, rfl,
      ?_, ?_, ?_⟩
    · simp [ctor, prepare_, hp, htail, errors.throw_bad_sqlite]
    · show ((-1 : Int) % 256 = 255)
      decide
    · show ¬ is_engine_status (-1)
      decide
    · show ¬ is_engine_status ((-1 : Int) % 256)
      decide
  · intro s0 t hstart hs
    unfold extract_singer_value_
    generalize start_execute_ E b = b0 at hstart ⊢
    obtain ⟨st, d, i, e, tr⟩ := b0
    simp only at hstart
    subst hstart
    refine ⟨sqlite_exception.of_msg "no more rows to extract, but exactly 1 row expected!"
      (E.sqlite3_sql t) SQLITE_DONE, ?_, rfl, rfl, rfl, ?_⟩
    · simp [call_step, hs, sql, errors.throw_bad_sqlite]
    · show ((101 : Int) % 256 = 101)
      decide
  · intro s0 r1 r2 hstart hs hs2
    unfold extract_singer_value_
    generalize start_execute_ E b = b0 at hstart ⊢
    obtain ⟨st, d, i, e, tr⟩ := b0
    simp only at hstart
    subst hstart
    refine ⟨sqlite_exception.of_msg "not all row etracted!" (E.sqlite3_sql r2) SQLITE_ROW,
      ?_, rfl, rfl, rfl, ?_⟩
    · simp [call_step, hs, hs2, sql, errors.throw_bad_sqlite]
    · show ((100 : Int) % 256 = 100)
      decide

/-- Witness for C10 (amended) on the reference engine: a text with a second
statement after the first. -/
theorem logic_error_contents_witness :
    ∃ e, database_binder.ctor sim true 0 "SELECT 1; SELECT 2;" = Except.error e ∧
      e.what = "Multiple semicolon separated statements are unsupported" ∧
      e.get_sql = "SELECT 1; SELECT 2;" ∧ e.get_extended_code = -1 ∧ e.get_code = 255 ∧
      ¬ is_engine_status e.get_extended_code ∧ ¬ is_engine_status e.get_code :=
  (logic_error_contents sim (sim_binder sim_no_rows uncaught_exception_detector.legacy) true 0
      "SELECT 1; SELECT 2;" (fun _ (k : Unit) => k) ()).1 _ 9 rfl rfl

/-! ## Single-statement enforcement -/

namespace database_binder

theorem next_index_fields (E : Engine σ) (b : database_binder σ) :
    (next_index_ E b).2.execution_started = b.execution_started ∧
    (next_index_ E b).2.has_uncaught_detector_ = b.has_uncaught_detector_ ∧
    (next_index_ E b).2.stmt_.isSome = b.stmt_.isSome := by
  unfold next_index_
  split <;> simp [call_clear_bindings, call_reset]

theorem next_index_unstarted (E : Engine σ) (b : database_binder σ)
    (h : b.execution_started = false) :
    next_index_ E b = (b.idx_ + 1, { b with idx_ := b.idx_ + 1 }) := by
  simp [next_index_, h]

theorem call_bind_fields (E : Engine σ) (b : database_binder σ) (idx : Int) (val : BindVal) :
    (call_bind E b idx val).2.execution_started = b.execution_started ∧
    (call_bind E b idx val).2.has_uncaught_detector_ = b.has_uncaught_detector_ ∧
    (call_bind E b idx val).2.stmt_.isSome = b.stmt_.isSome ∧
    (call_bind E b idx val).2.idx_ = b.idx_ := by
  unfold call_bind
  cases hs : b.stmt_ <;> cases val <;> simp

theorem operator_shl_db (E : Engine σ) (val : BindVal) (b : database_binder σ) :
    (operator_shl E val b).1 = (call_bind E (next_index_ E b).2 (next_index_ E b).1 val).2 := by
  unfold operator_shl
  simp only
  split
  · split <;> rfl
  · rfl

theorem operator_shl_fields (E : Engine σ) (val : BindVal) (b : database_binder σ) :
    (operator_shl E val b).1.execution_started = b.execution_started ∧
    (operator_shl E val b).1.has_uncaught_detector_ = b.has_uncaught_detector_ ∧
    (operator_shl E val b).1.stmt_.isSome = b.stmt_.isSome := by
  rw [operator_shl_db]
  obtain ⟨h1, h2, h3, -⟩ := call_bind_fields E (next_index_ E b).2 (next_index_ E b).1 val
  obtain ⟨g1, g2, g3⟩ := next_index_fields E b
  exact ⟨h1.trans g1, h2.trans g2, h3.trans g3⟩

theorem bind_chain_fields (E : Engine σ) (vals : List BindVal) :
    ∀ b : database_binder σ,
      (bind_chain E b vals).1.execution_started = b.execution_started ∧
      (bind_chain E b vals).1.has_uncaught_detector_ = b.has_uncaught_detector_ ∧
      (bind_chain E b vals).1.stmt_.isSome = b.stmt_.isSome := by
  induction vals with
  | nil => intro b; simp [bind_chain]
  | cons val vals ih =>
    intro b
    obtain ⟨h1, h2, h3⟩ := operator_shl_fields E val b
    unfold bind_chain
    rcases hop : operator_shl E val b with ⟨b1, o⟩
    rw [hop] at h1 h2 h3
    simp only at h1 h2 h3
    cases o with
    | returned =>
      obtain ⟨g1, g2, g3⟩ := ih b1
      exact ⟨g1.trans h1, g2.trans h2, g3.trans h3⟩
    | raised e => exact ⟨h1, h2, h3⟩
    | unfinished => exact ⟨h1, h2, h3⟩

theorem step_while_row_trace (E : Engine σ) (fuel : Nat) :
    ∀ b : database_binder σ,
      ∃ n, (step_while_row E fuel b).1.trace = b.trace ++ List.replicate n Event.step := by
  induction fuel with
  | zero => intro b; exact ⟨0, by simp [step_while_row]⟩
  | succ fuel ih =>
    intro b
    unfold step_while_row
    split
    · obtain ⟨n, hn⟩ := ih (call_step E b).2
      refine ⟨n + 1, ?_⟩
      rw [hn, call_step_trace]
      simp [List.replicate_succ]
    · exact ⟨1, by simp [call_step_trace]⟩

theorem start_execute_unstarted (E : Engine σ) (b : database_binder σ)
    (h : b.execution_started = false) :
    start_execute_ E b
      = { b with idx_ := 0, execution_started := true, trace := b.trace ++ [Event.start] } := by
  simp [start_execute_, set_used, next_index_unstarted E b h]

theorem call_step_detector (E : Engine σ) (b : database_binder σ)
    (d : uncaught_exception_detector) :
    call_step E { b with has_uncaught_detector_ := d }
      = ((call_step E b).1, { (call_step E b).2 with has_uncaught_detector_ := d }) := by
  unfold call_step
  cases b.stmt_ <;> rfl

theorem step_while_row_detector (E : Engine σ) (d : uncaught_exception_detector) (fuel : Nat) :
    ∀ b : database_binder σ,
      step_while_row E fuel { b with has_uncaught_detector_ := d }
        = ({ (step_while_row E fuel b).1 with has_uncaught_detector_ := d },
           (step_while_row E fuel b).2) := by
  induction fuel with
  | zero => intro b; rfl
  | succ fuel ih =>
    intro b
    rw [step_while_row, step_while_row, call_step_detector]
    simp only
    split
    · exact ih _
    · rfl

theorem execute_detector (E : Engine σ) (d : uncaught_exception_detector) (fuel : Nat)
    (b : database_binder σ) (h : b.execution_started = false) :
    execute E fuel { b with has_uncaught_detector_ := d }
      = ({ (execute E fuel b).1 with has_uncaught_detector_ := d }, (execute E fuel b).2) := by
  have hs : start_execute_ E { b with has_uncaught_detector_ := d }
      = { start_execute_ E b with has_uncaught_detector_ := d } := by
    rw [start_execute_unstarted E b h]
    exact start_execute_unstarted E { b with has_uncaught_detector_ := d } h
  have hsql : ∀ x : database_binder σ,
      sql E { x with has_uncaught_detector_ := d } = sql E x := fun x => rfl
  unfold execute
  simp only [hs, step_while_row_detector, hsql]
  split
  · rfl
  · split
    · split <;> rfl
    · rfl

theorem execute_db (E : Engine σ) (fuel : Nat) (b : database_binder σ) :
    (execute E fuel b).1 = (step_while_row E fuel (start_execute_ E b)).1 := by
  unfold execute
  simp only
  split
  · rfl
  · split
    · split <;> rfl
    · rfl

end database_binder

open database_binder uncaught_exception_detector in
/-- Claim C2 as stated fails: a statement built while one exception was in
flight receives one bind, is never started and is released while no exception
is propagating; release issues no engine call at all, so the insert never
runs, where `execute` would have started and stepped it. -/
theorem drain_on_release_counterexample :
    ctor sim true 1 "INSERT INTO t VALUES (?)"
      = Except.ok (sim_binder sim_insert (init true 1)) ∧
    (bind_chain sim (sim_binder sim_insert (init true 1)) [BindVal.int 5]).1.used = false ∧
    (bind_chain sim (sim_binder sim_insert (init true 1)) [BindVal.int 5]).1.trace
      = [Event.bind_int 1 5] ∧
    ((bind_chain sim (sim_binder sim_insert (init true 1)) [BindVal.int 5]).1.dtor sim 2 0).1.trace
      = [Event.bind_int 1 5] ∧
    ((bind_chain sim (sim_binder sim_insert (init true 1)) [BindVal.int 5]).1.execute sim 2).1.trace
      = [Event.bind_int 1 5, Event.start, Event.step] := by
  refine ⟨rfl, rfl, rfl, rfl, rfl⟩

open database_binder uncaught_exception_detector in
/-- Claim C2, amended: a live statement that received any number of binds and
was never started stays unstarted; when its detector does not fire at release
(the count of exceptions in flight equals the one recorded when the object was
built or move-constructed, or, without that support, none is in flight),
release is exactly one `execute`: one start followed by steps only, which on a
run of rows followed by done steps to completion and returns.  After a move
the same holds for the new object and the moved-from object issues nothing.
A started statement issues nothing at release. -/
theorem drain_on_release (E : Engine σ) (fuel : Nat) (b : database_binder σ)
    (vals : List BindVal) (now moved_at : Int)
    (hfresh : b.used = false) (hlive : b.stmt_.isSome = true) :
    (bind_chain E b vals).1.used = false ∧
    ((bind_chain E b vals).1.has_uncaught_detector_.operator_bool now = false →
      (bind_chain E b vals).1.dtor E fuel now = (bind_chain E b vals).1.execute E fuel) ∧
    (∃ n, ((bind_chain E b vals).1.execute E fuel).1.trace
      = (bind_chain E b vals).1.trace ++ Event.start :: List.replicate n Event.step) ∧
    (∀ s0 rows t, (bind_chain E b vals).1.stmt_ = some s0 → Run E s0 rows SQLITE_DONE t →
      rows.length < fuel →
      ((bind_chain E b vals).1.execute E fuel).2 = Outcome.returned ∧
      ((bind_chain E b vals).1.execute E fuel).1.trace
        = (bind_chain E b vals).1.trace
            ++ Event.start :: List.replicate (rows.length + 1) Event.step) ∧
    (((bind_chain E b vals).1.move_ctor moved_at).1.has_uncaught_detector_.operator_bool now
        = false →
      ((bind_chain E b vals).1.move_ctor moved_at).1.dtor E fuel now
        = ((bind_chain E b vals).1.move_ctor moved_at).1.execute E fuel) ∧
    ((bind_chain E b vals).1.move_ctor moved_at).1.execute E fuel
      = ({ ((bind_chain E b vals).1.execute E fuel).1 with
            has_uncaught_detector_ :=
              (bind_chain E b vals).1.has_uncaught_detector_.reinit moved_at },
         ((bind_chain E b vals).1.execute E fuel).2) ∧
    ((bind_chain E b vals).1.move_ctor moved_at).2.dtor E fuel now
      = (((bind_chain E b vals).1.move_ctor moved_at).2, Outcome.returned) ∧
    (∀ d : database_binder σ, d.used = true → d.dtor E fuel now = (d, Outcome.returned)) ∧
    (∀ count, (init true count).operator_bool now = false ↔ count = now) ∧
    (∀ count, (init false count).operator_bool now = false ↔ now = 0) ∧
    (∀ count,
      ((init true count).reinit moved_at).operator_bool now = false ↔ moved_at = now) := by
  obtain ⟨h1, h2, h3⟩ := bind_chain_fields E vals b
  generalize (bind_chain E b vals).1 = c at h1 h2 h3 ⊢
  have hc : c.execution_started = false := by rw [h1]; exact hfresh
  have hl : c.stmt_.isSome = true := by rw [h3]; exact hlive
  refine ⟨hc, ?_, ?_, ?_, ?_, ?_, ?_, ?_, ?_, ?_, ?_⟩
  · intro hdet
    simp [dtor, used, hc, hl, hdet]
  · obtain ⟨n, hn⟩ := step_while_row_trace E fuel (start_execute_ E c)
    refine ⟨n, ?_⟩
    rw [execute_db, hn, start_execute_unstarted E c hc]
    simp
  · intro s0 rows t hs hrun hfuel
    have hstart : (start_execute_ E c).stmt_ = some s0 := by
      rw [start_execute_unstarted E c hc]; exact hs
    have key := step_while_row_run E rows s0 _ fuel SQLITE_DONE t hstart hrun hfuel
    unfold execute
    simp only [key]
    simp [errors.throw_sqlite_error, start_execute_unstarted E c hc]
  · intro hdet
    simp [dtor, used, move_ctor, hc, hl] at hdet ⊢
    intro hcon
    exact absurd hdet (by simp [hcon])
  · exact execute_detector E _ fuel c hc
  · simp [dtor, move_ctor]
  · intro d hd
    simp [dtor, hd]
  · intro count; simp [init, operator_bool]
  · intro count; simp [init, operator_bool]
  · intro count; simp [init, reinit, operator_bool]

/-- Witness for C2 (amended) on the reference engine: one bind on the insert
statement, released while no exception is in flight, as at construction. -/
theorem drain_on_release_witness :
    ((database_binder.bind_chain sim
        (sim_binder sim_insert (uncaught_exception_detector.init true 0))
        [BindVal.int 5]).1.dtor sim 2 0).1.trace
      = [Event.bind_int 1 5, Event.start, Event.step] :=
  ((drain_on_release sim 2 (sim_binder sim_insert (uncaught_exception_detector.init true 0))
      [BindVal.int 5] 0 0 rfl rfl).2.1 rfl) ▸ rfl

open database_binder uncaught_exception_detector in
/-- Claim C7 as stated fails: a never-started statement built while one
exception was in flight is released while that exception is still
propagating, and release runs the implicit execute, stepping the engine. -/
theorem unwind_drain_counterexample :
    ctor sim true 1 "SELECT 1;  " = Except.ok (sim_binder sim_one_row (init true 1)) ∧
    (sim_binder sim_one_row (init true 1)).used = false ∧
    (1 : Int) ≠ 0 ∧
    ((sim_binder sim_one_row (init true 1)).dtor sim 3 1).1.trace
      = [Event.start, Event.step, Event.step] := by
  refine ⟨rfl, rfl, by decide, rfl⟩

open database_binder uncaught_exception_detector in
/-- Claim C7, amended: when the detector fires at release, release performs
no implicit execute and issues no engine call.  With support for counting
uncaught exceptions the detector fires exactly when the count at release
differs from the count recorded when the object was built or move-constructed;
without it, exactly when an exception is propagating at release. -/
theorem unwind_suppresses_drain (E : Engine σ) (fuel : Nat) (b : database_binder σ)
    (now : Int) (hfire : b.has_uncaught_detector_.operator_bool now = true) :
    b.dtor E fuel now = (b, Outcome.returned) ∧
    (∀ count, (counting count).operator_bool now = true ↔ count ≠ now) ∧
    (legacy.operator_bool now = true ↔ now ≠ 0) ∧
    (∀ cpp17 count text c, ctor E cpp17 count text = Except.ok c →
      c.has_uncaught_detector_ = init cpp17 count ∧ c.used = false) ∧
    (∀ count, (b.move_ctor count).1.has_uncaught_detector_
      = b.has_uncaught_detector_.reinit count) := by
  refine ⟨?_, ?_, ?_, ?_, ?_⟩
  · simp [dtor, hfire]
  · intro count; simp [operator_bool]
  · simp [operator_bool]
  · intro cpp17 count text c hc
    unfold ctor at hc
    split at hc
    · cases hc
    · cases hc
      exact ⟨rfl, rfl⟩
  · intro count; rfl

/-- Witness for C7 (amended) on the reference engine: built with no exception
in flight, released while one is propagating. -/
theorem unwind_suppresses_drain_witness :
    (sim_binder sim_one_row (uncaught_exception_detector.counting 0)).dtor sim 3 1
      = (sim_binder sim_one_row (uncaught_exception_detector.counting 0), Outcome.returned) :=
  (unwind_suppresses_drain sim 3 (sim_binder sim_one_row (uncaught_exception_detector.counting 0))
      1 rfl).1

/-! ## Bind and record round trip -/

theorem c_str_idem (s : String) : c_str (c_str s) = c_str s := by
  unfold c_str
  congr 1
  show List.takeWhile _ (List.takeWhile _ s.data) = _
  rw [List.takeWhile_takeWhile]
  congr 1
  funext ch
  simp

theorem c_str_of_no_nul (s : String) (h : ∀ ch ∈ s.data, ch.toNat ≠ 0) : c_str s = s := by
  unfold c_str
  have : s.data.takeWhile (fun ch => decide (ch.toNat ≠ 0)) = s.data := by
    rw [List.takeWhile_eq_self_iff]
    intro ch hch
    simpa using h ch hch
  rw [this]

theorem wrap_signed_32_of_range (a : Int) (h1 : -2147483648 ≤ a) (h2 : a < 2147483648) :
    wrap_signed 32 a = a := by
  unfold wrap_signed
  norm_num
  omega

theorem tuple_iterate_eq (E : Engine σ) (db : database_binder σ) :
    ∀ (tys : List CppTy) (n : Nat),
      tuple_iterator.iterate E db tys (n : Int)
        = (tys.enumFrom n).map (fun p => get_column_from_db E db (p.1 : Int) p.2) := by
  intro tys
  induction tys with
  | nil => intro n; rfl
  | cons ty tys ih =>
    intro n
    have := ih (n + 1)
    simp only [Nat.cast_add, Nat.cast_one] at this
    simp [tuple_iterator.iterate, List.enumFrom, this]

namespace database_binder

theorem call_bind_trace (E : Engine σ) (b : database_binder σ) (idx : Int) (val : BindVal) :
    (call_bind E b idx val).2.trace = b.trace ++ [bind_event E idx val] := by
  unfold call_bind
  cases hs : b.stmt_ <;> cases val <;> simp [bind_event]

theorem bind_chain_positions (E : Engine σ) (vals : List BindVal) :
    ∀ (b : database_binder σ) (i : Nat), b.execution_started = false → b.idx_ = (i : Int) →
      ∃ m, m ≤ vals.length ∧
        (bind_chain E b vals).1.trace
          = b.trace ++ ((vals.enumFrom (i + 1)).take m).map
              (fun p => bind_event E (p.1 : Int) p.2) ∧
        (bind_chain E b vals).1.idx_ = ((i + m : Nat) : Int) ∧
        ((bind_chain E b vals).2 = Outcome.returned → m = vals.length) := by
  induction vals with
  | nil =>
    intro b i _ hi
    exact ⟨0, le_refl _, by simp [bind_chain], by simp [bind_chain, hi], fun _ => rfl⟩
  | cons val vals ih =>
    intro b i hb hi
    have hdb := operator_shl_db E val b
    rw [next_index_unstarted E b hb] at hdb
    simp only at hdb
    obtain ⟨f1, -, -, f4⟩ := call_bind_fields E { b with idx_ := b.idx_ + 1 } (b.idx_ + 1) val
    have ftr := call_bind_trace E { b with idx_ := b.idx_ + 1 } (b.idx_ + 1) val
    rw [← hdb] at f1 f4 ftr
    simp only at f1 f4 ftr
    have hidx : (operator_shl E val b).1.idx_ = ((i + 1 : Nat) : Int) := by
      rw [f4, hi]; push_cast; ring
    unfold bind_chain
    rcases hop : operator_shl E val b with ⟨b1, o⟩
    rw [hop] at f1 ftr hidx
    simp only at f1 ftr hidx
    have hev : bind_event E (b.idx_ + 1) val = bind_event E ((i + 1 : Nat) : Int) val := by
      rw [hi]; push_cast; rfl
    cases o with
    | returned =>
      obtain ⟨m, hm, htr, hix, hret⟩ := ih b1 (i + 1) (f1.trans hb) hidx
      refine ⟨m + 1, by simp; omega, ?_, ?_, ?_⟩
      · simp only [htr, ftr, hev]
        simp [List.enumFrom, List.take_succ_cons]
      · simp only [hix]
        push_cast; ring
      · intro h
        simp [hret h]
    | raised e =>
      refine ⟨1, by simp, ?_, ?_, ?_⟩
      · simp only [ftr, hev]
        simp [List.enumFrom]
      · simpa using hidx
      · intro h; cases h
    | unfinished =>
      refine ⟨1, by simp, ?_, ?_, ?_⟩
      · simp only [ftr, hev]
        simp [List.enumFrom]
      · simpa using hidx
      · intro h; cases h

end database_binder

open database_binder in
/-- Claim C5 as stated fails: binding 42 and the text `a`, NUL, `b` to
`SELECT ?, ?` and extracting into a record of an integer and a text yields
the text `a`, not the text that was bound. -/
theorem record_round_trip_counterexample :
    (operator_shr_tuple sim [CppTy.int, CppTy.string]
        (bind_chain sim (sim_binder SimStmt.select_params uncaught_exception_detector.legacy)
          [BindVal.int 42, BindVal.string text_with_nul]).1 []).dest
      = [CppVal.int 42, CppVal.string "a"] ∧
    "a" ≠ text_with_nul := by
  refine ⟨rfl, by decide⟩

open database_binder in
theorem record_round_trip_echo (E1 : Engine σ) (b1 : database_binder σ) (a : Int) (s : String)
    (s0 s1 s2 r t : σ) (hf : b1.execution_started = false) (hi : b1.idx_ = 0)
    (hs : b1.stmt_ = some s0)
    (hb1 : E1.sqlite3_bind_int s0 1 a = (SQLITE_OK, s1))
    (hb2 : E1.sqlite3_bind_text s1 2 (c_str s) = (SQLITE_OK, s2))
    (hst1 : E1.sqlite3_step s2 = (SQLITE_ROW, r)) (hst2 : E1.sqlite3_step r = (SQLITE_DONE, t))
    (hc0 : E1.sqlite3_column_type r 0 ≠ SQLITE_NULL) (hv0 : E1.sqlite3_column_int r 0 = a)
    (hc1 : E1.sqlite3_column_type r 1 ≠ SQLITE_NULL)
    (hv1 : E1.sqlite3_column_text r 1 = c_str s) :
    (operator_shr_tuple E1 [CppTy.int, CppTy.string]
        (bind_chain E1 b1 [BindVal.int a, BindVal.string s]).1 []).outcome
      = Outcome.returned ∧
    (operator_shr_tuple E1 [CppTy.int, CppTy.string]
        (bind_chain E1 b1 [BindVal.int a, BindVal.string s]).1 []).dest
      = [CppVal.int a, CppVal.string (c_str s)] := by
  obtain ⟨st, d, i, e, tr⟩ := b1
  simp only at hf hi hs
  subst hf hi hs
  simp [operator_shr_tuple, extract_singer_value_, bind_chain, operator_shl, next_index_,
    call_bind, hb1, hb2, start_execute_, set_used, call_step, hst1, hst2,
    tuple_iterator.iterate, get_column_from_db, hc0, hv0, hc1, hv1, c_str_idem]

open database_binder in
/-- Claim C5, amended: on a fresh statement the k-th bind of a chain is
issued at position k, the cursor advancing by one per bind (a rejected bind
ends the chain); record extraction decodes column i into slot i; and when the
single result row returns parameter i+1 in column i, binding a 32-bit integer
and a text and extracting into a record of an integer and a text yields the
integer and the text up to its first NUL character, which is the text itself
when it holds no NUL. -/
theorem bind_record_round_trip (E : Engine σ) (b db : database_binder σ)
    (vals : List BindVal) (tys : List CppTy)
    (hfresh : b.execution_started = false) (hidx : b.idx_ = 0) :
    (∃ m, m ≤ vals.length ∧
      (bind_chain E b vals).1.trace
        = b.trace ++ ((vals.enumFrom 1).take m).map (fun p => bind_event E (p.1 : Int) p.2) ∧
      (bind_chain E b vals).1.idx_ = (m : Int) ∧
      ((bind_chain E b vals).2 = Outcome.returned → m = vals.length)) ∧
    tuple_iterator.iterate E db tys 0
      = tys.enum.map (fun p => get_column_from_db E db (p.1 : Int) p.2) ∧
    (∀ (a : Int) (s : String) (s0 s1 s2 r t : σ), b.stmt_ = some s0 →
      E.sqlite3_bind_int s0 1 a = (SQLITE_OK, s1) →
      E.sqlite3_bind_text s1 2 (c_str s) = (SQLITE_OK, s2) →
      E.sqlite3_step s2 = (SQLITE_ROW, r) → E.sqlite3_step r = (SQLITE_DONE, t) →
      E.sqlite3_column_type r 0 ≠ SQLITE_NULL → E.sqlite3_column_int r 0 = a →
      E.sqlite3_column_type r 1 ≠ SQLITE_NULL → E.sqlite3_column_text r 1 = c_str s →
      (operator_shr_tuple E [CppTy.int, CppTy.string]
          (bind_chain E b [BindVal.int a, BindVal.string s]).1 []).outcome = Outcome.returned ∧
      (operator_shr_tuple E [CppTy.int, CppTy.string]
          (bind_chain E b [BindVal.int a, BindVal.string s]).1 []).dest
        = [CppVal.int a, CppVal.string (c_str s)]) ∧
    (∀ (a : Int) (s : String) (d : uncaught_exception_detector),
      -2147483648 ≤ a → a < 2147483648 →
      (operator_shr_tuple sim [CppTy.int, CppTy.string]
          (bind_chain sim (sim_binder SimStmt.select_params d)
            [BindVal.int a, BindVal.string s]).1 []).outcome = Outcome.returned ∧
      (operator_shr_tuple sim [CppTy.int, CppTy.string]
          (bind_chain sim (sim_binder SimStmt.select_params d)
            [BindVal.int a, BindVal.string s]).1 []).dest
        = [CppVal.int a, CppVal.string (c_str s)] ∧
      ((∀ ch ∈ s.data, ch.toNat ≠ 0) →
        (operator_shr_tuple sim [CppTy.int, CppTy.string]
            (bind_chain sim (sim_binder SimStmt.select_params d)
              [BindVal.int a, BindVal.string s]).1 []).dest
          = [CppVal.int a, CppVal.string s])) := by
  refine ⟨?_, ?_, ?_, ?_⟩
  · obtain ⟨m, hm, htr, hix, hret⟩ :=
      bind_chain_positions E vals b 0 hfresh (by simpa using hidx)
    exact ⟨m, hm, by simpa using htr, by simpa using hix, hret⟩
  · have := tuple_iterate_eq E db tys 0
    simpa [List.enum] using this
  · intro a s s0 s1 s2 r t hs hb1 hb2 hst1 hst2 hc0 hv0 hc1 hv1
    exact record_round_trip_echo E b a s s0 s1 s2 r t hfresh hidx hs hb1 hb2 hst1 hst2
      hc0 hv0 hc1 hv1
  · intro a s d ha1 ha2
    have hw : SimStmt.column_int
        (SimStmt.step (SimStmt.bind (SimStmt.bind SimStmt.select_params 1 (SqlVal.integer a)).2 2
          (SqlVal.text (c_str s))).2).2 0 = a := wrap_signed_32_of_range a ha1 ha2
    have key := record_round_trip_echo sim (sim_binder SimStmt.select_params d) a s
      SimStmt.select_params
      (SimStmt.bind SimStmt.select_params 1 (SqlVal.integer a)).2
      (SimStmt.bind (SimStmt.bind SimStmt.select_params 1 (SqlVal.integer a)).2 2
        (SqlVal.text (c_str s))).2
      (SimStmt.step (SimStmt.bind (SimStmt.bind SimStmt.select_params 1 (SqlVal.integer a)).2 2
        (SqlVal.text (c_str s))).2).2
      (SimStmt.step (SimStmt.step (SimStmt.bind
        (SimStmt.bind SimStmt.select_params 1 (SqlVal.integer a)).2 2
        (SqlVal.text (c_str s))).2).2).2
      rfl rfl rfl rfl rfl rfl rfl (show SQLITE_INTEGER ≠ SQLITE_NULL by decide) hw
      (show SQLITE_TEXT ≠ SQLITE_NULL by decide) rfl
    refine ⟨key.1, key.2, ?_⟩
    intro hnul
    rw [key.2, c_str_of_no_nul s hnul]

/-- Witness for C5 (amended) on the reference engine: the pair 42 and
`hello` bound to `SELECT ?, ?` is extracted unchanged. -/
theorem bind_record_round_trip_witness :
    (database_binder.operator_shr_tuple sim [CppTy.int, CppTy.string]
        (database_binder.bind_chain sim
          (sim_binder SimStmt.select_params uncaught_exception_detector.legacy)
          [BindVal.int 42, BindVal.string "hello"]).1 []).dest
      = [CppVal.int 42, CppVal.string "hello"] :=
  ((bind_record_round_trip sim
      (sim_binder SimStmt.select_params uncaught_exception_detector.legacy)
      (sim_binder SimStmt.select_params uncaught_exception_detector.legacy)
      [BindVal.int 42, BindVal.string "hello"] [CppTy.int, CppTy.string] rfl rfl).2.2.2
    42 "hello" uncaught_exception_detector.legacy (by decide) (by decide)).2.2 (by decide)

/-! ## Reuse -/

theorem reset_clear_snoc (k : Nat) :
    reset_clear k ++ [Event.reset, Event.clear_bindings] = reset_clear (k + 1) := by
  induction k with
  | zero => rfl
  | succ k ih => simp only [reset_clear, List.cons_append, ih]

theorem start_not_mem_reset_clear (k : Nat) : Event.start ∉ reset_clear k := by
  induction k with
  | zero => simp [reset_clear]
  | succ k ih => simp [reset_clear, ih]

theorem start_not_mem_shape (n k : Nat) (binds : List Event)
    (hb : ∀ e ∈ binds, e.is_bind = true) :
    Event.start ∉ List.replicate n Event.step ++ reset_clear k ++ binds := by
  intro h
  simp only [List.mem_append, List.mem_replicate] at h
  rcases h with (⟨-, h⟩ | h) | h
  · cases h
  · exact start_not_mem_reset_clear k h
  · have := hb _ h
    simp [Event.is_bind] at this

theorem last_segment_unique (hist cur pre mid : List Event)
    (h : hist ++ Event.start :: cur = pre ++ Event.start :: mid)
    (hc : Event.start ∉ cur) (hm : Event.start ∉ mid) : mid = cur := by
  rcases List.append_eq_append_iff.mp h with ⟨a, ha, hb⟩ | ⟨c, hc1, hc2⟩
  · cases a with
    | nil =>
      simp only [List.nil_append, List.cons.injEq, true_and] at hb
      exact hb.symm
    | cons x a =>
      simp only [List.cons_append, List.cons.injEq] at hb
      exact absurd (hb.2 ▸ (by simp : Event.start ∈ a ++ Event.start :: mid)) hc
  · cases c with
    | nil =>
      simp only [List.nil_append, List.cons.injEq, true_and] at hc2
      exact hc2
    | cons x c =>
      simp only [List.cons_append, List.cons.injEq] at hc2
      exact absurd (hc2.2 ▸ (by simp : Event.start ∈ c ++ Event.start :: cur)) hm

theorem reuse_ok_append (once : Prop) (tr evs : List Event) (h : reuse_ok once tr)
    (hev : Event.start ∉ evs) : reuse_ok once (tr ++ evs) := by
  intro pre mid post heq hmid
  have heq2 : tr ++ evs = (pre ++ Event.start :: mid) ++ Event.start :: post := by
    simpa using heq
  rcases List.append_eq_append_iff.mp heq2 with ⟨a, ha, hb⟩ | ⟨c, hc1, hc2⟩
  · exact absurd (hb ▸ (by simp : Event.start ∈ a ++ Event.start :: post)) hev
  · cases c with
    | nil =>
      simp only [List.nil_append] at hc2
      exact absurd (hc2 ▸ (by simp : Event.start ∈ Event.start :: post)) hev
    | cons x c =>
      simp only [List.cons_append, List.cons.injEq] at hc2
      obtain ⟨rfl, -⟩ := hc2
      exact h pre mid c (by simpa using hc1) hmid

theorem reuse_ok_append_start (once : Prop) (tr : List Event) (h : reuse_ok once tr)
    (hlast : ∀ hist cur, tr = hist ++ Event.start :: cur → Event.start ∉ cur →
      well_reset once cur) :
    reuse_ok once (tr ++ [Event.start]) := by
  intro pre mid post heq hmid
  have heq2 : tr ++ [Event.start] = (pre ++ Event.start :: mid) ++ Event.start :: post := by
    simpa using heq
  rcases List.append_eq_append_iff.mp heq2 with ⟨a, ha, hb⟩ | ⟨c, hc1, hc2⟩
  · cases a with
    | nil =>
      simp only [List.append_nil] at ha
      exact hlast pre mid ha.symm hmid
    | cons x a =>
      simp only [List.cons_append, List.cons.injEq] at hb
      have := hb.2
      simp at this
  · cases c with
    | nil =>
      simp only [List.append_nil] at hc1
      exact hlast pre mid hc1 hmid
    | cons x c =>
      simp only [List.cons_append, List.cons.injEq] at hc2
      obtain ⟨rfl, -⟩ := hc2
      exact h pre mid c (by simpa using hc1) hmid

theorem reuse_inv_next (once : Prop) (tr : List Event) (idx : Int) (st : Bool)
    (h : reuse_inv once tr idx st) : reuse_mid once (trace_next tr idx st) idx := by
  obtain ⟨h0, hok, hseg⟩ := h
  unfold trace_next
  by_cases hr : st = true ∧ idx = 0
  · rw [if_pos hr]
    obtain ⟨hst, hidx⟩ := hr
    refine ⟨h0, reuse_ok_append once tr _ hok (by simp), ?_⟩
    rcases hseg with hno | ⟨hist, cur, htr, hopen⟩
    · left
      simp [hno]
    · right
      rcases hopen with ⟨n, hcur, -, -⟩ | ⟨n, k, binds, hk, hcur, hb, hbi, honce⟩
      · refine ⟨hist, n, 1, [], ?_, le_refl _, fun _ => rfl, by simp, by simp⟩
        simp [htr, hcur, reset_clear]
      · have hbinds : binds = [] := by
          by_contra hne
          have := hbi hne
          omega
        have hnot : ¬ once := by
          intro ho
          rcases (honce ho).2 with h1 | h1
          · rw [hst] at h1; cases h1
          · omega
        subst hbinds
        refine ⟨hist, n, k + 1, [], ?_, by omega, fun ho => absurd ho hnot, by simp, by simp⟩
        rw [← reset_clear_snoc]
        simp [htr, hcur]
  · rw [if_neg hr]
    refine ⟨h0, hok, ?_⟩
    rcases hseg with hno | ⟨hist, cur, htr, hopen⟩
    · exact Or.inl hno
    · right
      rcases hopen with ⟨n, -, hst, hidx⟩ | ⟨n, k, binds, hk, hcur, hb, hbi, honce⟩
      · exact absurd ⟨hst, hidx⟩ hr
      · exact ⟨hist, n, k, binds, by rw [htr, hcur], hk, fun ho => (honce ho).1, hb, hbi⟩

theorem reuse_inv_used_false (once : Prop) (tr : List Event) (idx : Int)
    (h : reuse_mid once tr idx) : reuse_inv once tr idx false := by
  obtain ⟨h0, hok, hseg⟩ := h
  refine ⟨h0, hok, ?_⟩
  rcases hseg with hno | ⟨hist, n, k, binds, htr, hk, honce, hb, hbi⟩
  · exact Or.inl hno
  · exact Or.inr ⟨hist, _, htr, Or.inr ⟨n, k, binds, hk, rfl, hb, hbi,
      fun ho => ⟨honce ho, Or.inl rfl⟩⟩⟩

theorem reuse_inv_bind (once : Prop) (tr : List Event) (idx : Int) (st : Bool) (e : Event)
    (he : e.is_bind = true) (h : reuse_mid once tr idx) :
    reuse_inv once (tr ++ [e]) (idx + 1) st := by
  obtain ⟨h0, hok, hseg⟩ := h
  have hne : Event.start ∉ [e] := by
    intro hmem
    simp only [List.mem_singleton] at hmem
    subst hmem
    simp [Event.is_bind] at he
  refine ⟨by omega, reuse_ok_append once tr _ hok hne, ?_⟩
  rcases hseg with hno | ⟨hist, n, k, binds, htr, hk, honce, hb, hbi⟩
  · left
    intro hmem
    rcases List.mem_append.mp hmem with h1 | h1
    · exact hno h1
    · exact hne h1
  · right
    refine ⟨hist, List.replicate n Event.step ++ reset_clear k ++ (binds ++ [e]),
      by rw [htr]; simp, Or.inr ⟨n, k, binds ++ [e], hk, rfl, ?_,
      fun _ => by omega, fun ho => ⟨honce ho, Or.inr (by omega)⟩⟩⟩
    intro x hx
    rcases List.mem_append.mp hx with h1 | h1
    · exact hb x h1
    · simp only [List.mem_singleton] at h1
      rw [h1]; exact he

theorem reuse_inv_start (once : Prop) (tr : List Event) (idx : Int) (n : Nat)
    (h : reuse_mid once tr idx) :
    reuse_inv once (tr ++ [Event.start] ++ List.replicate n Event.step) 0 true := by
  obtain ⟨h0, hok, hseg⟩ := h
  have hlast : ∀ hist cur, tr = hist ++ Event.start :: cur → Event.start ∉ cur →
      well_reset once cur := by
    intro hist cur htr hcur
    rcases hseg with hno | ⟨hist1, n1, k, binds, htr1, hk, honce, hb, hbi⟩
    · exact absurd (htr ▸ (by simp : Event.start ∈ hist ++ Event.start :: cur)) hno
    · have huniq := last_segment_unique hist1 _ hist cur (htr1.symm.trans htr)
        (start_not_mem_shape n1 k binds hb) hcur
      exact ⟨n1, k, binds, hk, honce, huniq, hb⟩
  refine ⟨le_refl _, ?_, ?_⟩
  · exact reuse_ok_append once _ _ (reuse_ok_append_start once tr hok hlast)
      (by simp [List.mem_replicate])
  · exact Or.inr ⟨tr, List.replicate n Event.step, by simp, Or.inl ⟨n, rfl, rfl, rfl⟩⟩

theorem reuse_inv_used_true (once : Prop) (tr : List Event) (idx : Int) (st : Bool)
    (hnot : ¬ once) (h : reuse_inv once tr idx st) : reuse_inv once tr idx true := by
  obtain ⟨h0, hok, hseg⟩ := h
  refine ⟨h0, hok, ?_⟩
  rcases hseg with hno | ⟨hist, cur, htr, hopen⟩
  · exact Or.inl hno
  · right
    refine ⟨hist, cur, htr, ?_⟩
    rcases hopen with ⟨n, hcur, -, hidx⟩ | ⟨n, k, binds, hk, hcur, hb, hbi, -⟩
    · exact Or.inl ⟨n, hcur, rfl, hidx⟩
    · exact Or.inr ⟨n, k, binds, hk, hcur, hb, hbi, fun ho => absurd ho hnot⟩

theorem bind_event_is_bind (E : Engine σ) (idx : Int) (val : BindVal) :
    (bind_event E idx val).is_bind = true := by
  cases val <;> rfl

namespace database_binder

theorem next_index_effect (E : Engine σ) (b : database_binder σ) :
    (next_index_ E b).1 = b.idx_ + 1 ∧
    (next_index_ E b).2.trace = trace_next b.trace b.idx_ b.execution_started ∧
    (next_index_ E b).2.idx_ = b.idx_ + 1 ∧
    (next_index_ E b).2.execution_started = b.execution_started := by
  unfold next_index_ trace_next
  by_cases h : b.execution_started = true ∧ b.idx_ = 0
  · simp [h, call_clear_bindings, call_reset]
  · simp only [if_neg h]
    exact ⟨trivial, trivial, trivial, trivial⟩

theorem set_used_false_effect (E : Engine σ) (b : database_binder σ) :
    (set_used E false b).trace = trace_next b.trace b.idx_ b.execution_started ∧
    (set_used E false b).idx_ = b.idx_ ∧
    (set_used E false b).execution_started = false := by
  obtain ⟨-, h2, h3, -⟩ := next_index_effect E b
  simp [set_used, h2, h3]

theorem set_used_true_effect (E : Engine σ) (b : database_binder σ) :
    (set_used E true b).trace = b.trace ∧
    (set_used E true b).idx_ = b.idx_ ∧
    (set_used E true b).execution_started = true := by
  simp [set_used]

theorem operator_shl_effect (E : Engine σ) (val : BindVal) (b : database_binder σ) :
    (operator_shl E val b).1.trace
      = trace_next b.trace b.idx_ b.execution_started ++ [bind_event E (b.idx_ + 1) val] ∧
    (operator_shl E val b).1.idx_ = b.idx_ + 1 ∧
    (operator_shl E val b).1.execution_started = b.execution_started := by
  obtain ⟨h1, h2, h3, h4⟩ := next_index_effect E b
  obtain ⟨f1, -, -, f4⟩ := call_bind_fields E (next_index_ E b).2 (next_index_ E b).1 val
  rw [operator_shl_db]
  refine ⟨?_, f4.trans h3, f1.trans h4⟩
  rw [call_bind_trace, h1, h2]

theorem start_execute_effect (E : Engine σ) (b : database_binder σ) :
    (start_execute_ E b).trace
      = trace_next b.trace b.idx_ b.execution_started ++ [Event.start] ∧
    (start_execute_ E b).idx_ = 0 ∧
    (start_execute_ E b).execution_started = true := by
  obtain ⟨-, h2, -, -⟩ := next_index_effect E b
  simp [start_execute_, set_used, h2]

theorem call_step_fields (E : Engine σ) (b : database_binder σ) :
    (call_step E b).2.idx_ = b.idx_ ∧
    (call_step E b).2.execution_started = b.execution_started := by
  unfold call_step
  cases b.stmt_ <;> exact ⟨rfl, rfl⟩

theorem step_while_row_effect (E : Engine σ) (fuel : Nat) :
    ∀ b : database_binder σ,
      ∃ n, (step_while_row E fuel b).1.trace = b.trace ++ List.replicate n Event.step ∧
        (step_while_row E fuel b).1.idx_ = b.idx_ ∧
        (step_while_row E fuel b).1.execution_started = b.execution_started := by
  induction fuel with
  | zero => intro b; exact ⟨0, by simp [step_while_row], rfl, rfl⟩
  | succ fuel ih =>
    intro b
    obtain ⟨c1, c2⟩ := call_step_fields E b
    unfold step_while_row
    split
    · obtain ⟨n, hn, hi, hs⟩ := ih (call_step E b).2
      refine ⟨n + 1, ?_, hi.trans c1, hs.trans c2⟩
      rw [hn, call_step_trace]
      simp [List.replicate_succ]
    · exact ⟨1, by simp [call_step_trace], c1, c2⟩

theorem step_each_row_effect (E : Engine σ) (callback : database_binder σ → κ → κ)
    (fuel : Nat) :
    ∀ (b : database_binder σ) (k : κ),
      ∃ n, (step_each_row E callback fuel b k).1.trace
          = b.trace ++ List.replicate n Event.step ∧
        (step_each_row E callback fuel b k).1.idx_ = b.idx_ ∧
        (step_each_row E callback fuel b k).1.execution_started = b.execution_started := by
  induction fuel with
  | zero => intro b k; exact ⟨0, by simp [step_each_row], rfl, rfl⟩
  | succ fuel ih =>
    intro b k
    obtain ⟨c1, c2⟩ := call_step_fields E b
    unfold step_each_row
    split
    · obtain ⟨n, hn, hi, hs⟩ := ih (call_step E b).2 (callback (call_step E b).2 k)
      refine ⟨n + 1, ?_, hi.trans c1, hs.trans c2⟩
      rw [hn, call_step_trace]
      simp [List.replicate_succ]
    · exact ⟨1, by simp [call_step_trace], c1, c2⟩

theorem execute_effect (E : Engine σ) (fuel : Nat) (b : database_binder σ) :
    ∃ n, (execute E fuel b).1.trace
        = trace_next b.trace b.idx_ b.execution_started ++ [Event.start]
          ++ List.replicate n Event.step ∧
      (execute E fuel b).1.idx_ = 0 ∧ (execute E fuel b).1.execution_started = true := by
  obtain ⟨s1, s2, s3⟩ := start_execute_effect E b
  obtain ⟨n, hn, hi, hs⟩ := step_while_row_effect E fuel (start_execute_ E b)
  rw [execute_db]
  exact ⟨n, by rw [hn, s1], hi.trans s2, hs.trans s3⟩

theorem extract_singer_value_db (E : Engine σ) (callback : database_binder σ → κ → κ)
    (b : database_binder σ) (dest : κ) :
    (extract_singer_value_ E callback b dest).db = (call_step E (start_execute_ E b)).2 ∨
    (extract_singer_value_ E callback b dest).db
      = (call_step E (call_step E (start_execute_ E b)).2).2 := by
  unfold extract_singer_value_
  simp only
  split
  · exact Or.inl rfl
  · right
    split
    · rfl
    · split
      · split <;> rfl
      · rfl

theorem extract_singer_value_effect (E : Engine σ) (callback : database_binder σ → κ → κ)
    (b : database_binder σ) (dest : κ) :
    ∃ n, (extract_singer_value_ E callback b dest).db.trace
        = trace_next b.trace b.idx_ b.execution_started ++ [Event.start]
          ++ List.replicate n Event.step ∧
      (extract_singer_value_ E callback b dest).db.idx_ = 0 ∧
      (extract_singer_value_ E callback b dest).db.execution_started = true := by
  obtain ⟨s1, s2, s3⟩ := start_execute_effect E b
  obtain ⟨c1, c2⟩ := call_step_fields E (start_execute_ E b)
  obtain ⟨d1, d2⟩ := call_step_fields E (call_step E (start_execute_ E b)).2
  rcases extract_singer_value_db E callback b dest with h | h
  · refine ⟨1, ?_, ?_, ?_⟩
    · rw [h, call_step_trace, s1]; rfl
    · rw [h, c1, s2]
    · rw [h, c2, s3]
  · refine ⟨2, ?_, ?_, ?_⟩
    · rw [h, call_step_trace, call_step_trace, s1]; simp
    · rw [h, d1, c1, s2]
    · rw [h, d2, c2, s3]

theorem extract_multi_values_db (E : Engine σ) (fuel : Nat)
    (callback : database_binder σ → κ → κ) (b : database_binder σ) (dest : κ) :
    (extract_multi_values_ E fuel callback b dest).db
      = (step_each_row E callback fuel (start_execute_ E b) dest).1 := by
  unfold extract_multi_values_
  simp only
  split
  · rfl
  · split
    · split <;> rfl
    · rfl

theorem extract_multi_values_effect (E : Engine σ) (fuel : Nat)
    (callback : database_binder σ → κ → κ) (b : database_binder σ) (dest : κ) :
    ∃ n, (extract_multi_values_ E fuel callback b dest).db.trace
        = trace_next b.trace b.idx_ b.execution_started ++ [Event.start]
          ++ List.replicate n Event.step ∧
      (extract_multi_values_ E fuel callback b dest).db.idx_ = 0 ∧
      (extract_multi_values_ E fuel callback b dest).db.execution_started = true := by
  obtain ⟨s1, s2, s3⟩ := start_execute_effect E b
  obtain ⟨n, hn, hi, hs⟩ := step_each_row_effect E callback fuel (start_execute_ E b) dest
  rw [extract_multi_values_db]
  exact ⟨n, by rw [hn, s1], hi.trans s2, hs.trans s3⟩

end database_binder

theorem apply_reuse_inv (E : Engine σ) (fuel : Nat) (once : Prop) (op : Op)
    (b : database_binder σ) (hop : once → op ≠ Op.used true)
    (h : reuse_inv once b.trace b.idx_ b.execution_started) :
    reuse_inv once (op.apply E fuel b).1.trace (op.apply E fuel b).1.idx_
      (op.apply E fuel b).1.execution_started := by
  have hmid := reuse_inv_next once _ _ _ h
  cases op with
  | bind val =>
    obtain ⟨e1, e2, e3⟩ := database_binder.operator_shl_effect E val b
    simp only [Op.apply]
    rw [e1, e2, e3]
    exact reuse_inv_bind once _ _ _ _ (bind_event_is_bind E _ val) hmid
  | execute =>
    obtain ⟨n, e1, e2, e3⟩ := database_binder.execute_effect E fuel b
    simp only [Op.apply]
    rw [e1, e2, e3]
    exact reuse_inv_start once _ _ n hmid
  | value ty =>
    obtain ⟨n, e1, e2, e3⟩ := database_binder.extract_singer_value_effect E
      (fun db _ => get_column_from_db E db 0 ty) b ty.zero
    simp only [Op.apply, database_binder.operator_shr_value]
    rw [e1, e2, e3]
    exact reuse_inv_start once _ _ n hmid
  | tuple tys =>
    obtain ⟨n, e1, e2, e3⟩ := database_binder.extract_singer_value_effect E
      (fun db _ => tuple_iterator.iterate E db tys 0) b []
    simp only [Op.apply, database_binder.operator_shr_tuple]
    rw [e1, e2, e3]
    exact reuse_inv_start once _ _ n hmid
  | function tys =>
    obtain ⟨n, e1, e2, e3⟩ := database_binder.extract_multi_values_effect E fuel
      (fun db k1 => binder.run E db
        (fun args (acc : List (List CppVal)) => acc ++ [args]) tys [] k1) b []
    simp only [Op.apply, database_binder.operator_shr_function]
    rw [e1, e2, e3]
    exact reuse_inv_start once _ _ n hmid
  | used state =>
    cases state with
    | false =>
      obtain ⟨e1, e2, e3⟩ := database_binder.set_used_false_effect E b
      simp only [Op.apply]
      rw [e1, e2, e3]
      exact reuse_inv_used_false once _ _ hmid
    | true =>
      obtain ⟨e1, e2, e3⟩ := database_binder.set_used_true_effect E b
      simp only [Op.apply]
      rw [e1, e2, e3]
      exact reuse_inv_used_true once _ _ _ (fun ho => hop ho rfl) h

theorem run_ops_reuse_inv (E : Engine σ) (fuel : Nat) (once : Prop) (ops : List Op) :
    ∀ b : database_binder σ, (once → Op.used true ∉ ops) →
      reuse_inv once b.trace b.idx_ b.execution_started →
      reuse_inv once (run_ops E fuel b ops).trace (run_ops E fuel b ops).idx_
        (run_ops E fuel b ops).execution_started := by
  induction ops with
  | nil => intro b _ h; exact h
  | cons op ops ih =>
    intro b hops h
    have hstep := apply_reuse_inv E fuel once op b
      (fun ho heq => hops ho (heq ▸ List.mem_cons_self _ _)) h
    unfold run_ops
    rcases hap : op.apply E fuel b with ⟨b1, o⟩
    rw [hap] at hstep
    simp only at hstep
    cases o with
    | unfinished => exact hstep
    | returned => exact ih b1 (fun ho hm => hops ho (List.mem_cons_of_mem _ hm)) hstep
    | raised e => exact ih b1 (fun ho hm => hops ho (List.mem_cons_of_mem _ hm)) hstep

/-- Claim C6 as stated fails: after `execute`, `used(false)`, `used(true)` and
a second `execute`, the statement has been reset and cleared twice between the
two starts, not exactly once. -/
theorem reuse_reset_twice_counterexample :
    (run_ops sim 2 (sim_binder sim_no_rows uncaught_exception_detector.legacy)
        [Op.execute, Op.used false, Op.used true, Op.execute]).trace
      = [Event.start, Event.step, Event.reset, Event.clear_bindings, Event.reset,
          Event.clear_bindings, Event.start, Event.step] := by
  rfl

/-- Claim C6, amended: for every sequence of public operations on a statement
that has not been stepped yet, the events between any two consecutive starts
are the steps of the first pass, then one or more rounds of reset followed by
clear-bindings (exactly one round when the sequence holds no `used(true)`),
then bind calls only.  So every bind issued after the first start comes after
the clearing and none is wiped by it.  On the reference statement
`SELECT ?, ?`, a second pass that rebinds only the first parameter reads the
second one as null. -/
theorem reuse_resets_bindings (E : Engine σ) (fuel : Nat) (b : database_binder σ)
    (ops : List Op) (hidx : 0 ≤ b.idx_) (hnew : Event.start ∉ b.trace) :
    (∀ pre mid post,
      (run_ops E fuel b ops).trace = pre ++ Event.start :: mid ++ Event.start :: post →
      Event.start ∉ mid →
      ∃ (n k : Nat) (binds : List Event), 1 ≤ k ∧ (Op.used true ∉ ops → k = 1) ∧
        mid = List.replicate n Event.step ++ reset_clear k ++ binds ∧
        ∀ e ∈ binds, e.is_bind = true) ∧
    sim_second_pass.trace
      = [Event.bind_int 1 1, Event.bind_text 2 "x", Event.start, Event.step, Event.step,
          Event.reset, Event.clear_bindings, Event.bind_int 1 7] ∧
    (database_binder.operator_shr_tuple sim [CppTy.int, CppTy.string] sim_second_pass []).dest
      = [CppVal.int 7, CppVal.string ""] := by
  refine ⟨?_, rfl, rfl⟩
  have hinit : reuse_inv (Op.used true ∉ ops) b.trace b.idx_ b.execution_started := by
    refine ⟨hidx, ?_, Or.inl hnew⟩
    intro pre mid post heq _
    have hmem : Event.start ∈ pre ++ Event.start :: mid ++ Event.start :: post := by simp
    exact absurd (heq ▸ hmem) hnew
  have hfin := run_ops_reuse_inv E fuel (Op.used true ∉ ops) ops b (fun h => h) hinit
  exact hfin.2.1

/-- Witness for C6 (amended) on the reference engine: bind, execute, bind,
execute on the insert statement. -/
theorem reuse_resets_bindings_witness :
    ∃ (n k : Nat) (binds : List Event), 1 ≤ k ∧
      (Op.used true ∉ [Op.bind (BindVal.int 1), Op.execute, Op.bind (BindVal.int 7), Op.execute]
        → k = 1) ∧
      [Event.step, Event.reset, Event.clear_bindings, Event.bind_int 1 7]
        = List.replicate n Event.step ++ reset_clear k ++ binds ∧
      ∀ e ∈ binds, e.is_bind = true :=
  (reuse_resets_bindings sim 2 (sim_binder sim_insert uncaught_exception_detector.legacy)
      [Op.bind (BindVal.int 1), Op.execute, Op.bind (BindVal.int 7), Op.execute]
      (by decide) (by decide)).1
    [Event.bind_int 1 1] [Event.step, Event.reset, Event.clear_bindings, Event.bind_int 1 7]
    [Event.step] rfl (by decide)

end sqlite
